import Mathlib

/-!
# Verification of the resume-optimizer scoring and segmentation engine

This file gives a shallow embedding, in Lean 4, of the core functions of the
repository (files `resume_analyzer.py` and `utils.py`) and proves properties
of that embedding.

Modelling conventions:

* Python strings are Lean `String`s; the character-level primitives
  (`lower`, `strip`, substring containment, the `re` patterns actually used
  by the code) are modelled over `List Char` in the ASCII range, which covers
  every literal appearing in the program.
* Python floats are modelled as exact rationals (`ℚ`); `int(x)` is truncation
  toward zero (`pyInt`).
* The external sentence-embedding provider (`SentenceTransformer` plus
  `cosine_similarity`) is an abstract parameter `Model`: a function from the
  two (truncated) texts to `Except String ℚ`, whose `.error` case models an
  exception raised inside the provider.  `get_model()` itself is modelled by a
  parameter of type `Except String Model`, whose `.error` case models an
  exception raised while loading the model; this is the exception source that
  reaches the top-level `try/except` of `analyze_resume`.
* The external `rapidfuzz` scorers (`fuzz.ratio`, `fuzz.partial_ratio`,
  `fuzz.token_sort_ratio`) are abstract parameters gathered in a `Fuzz`
  structure.  The exact-equality short-circuit of `find_best_section` is part
  of the repository's own code and is modelled concretely.
* Python `dict`s with fixed string keys are association lists in insertion
  order; the iteration order of a Python `set` is not specified, and is
  modelled as the textual order of the corresponding literal.
-/

/-! ## Python string primitives -/

/-- Whitespace as matched by `str.strip`, `str.split` and the regex class
`\s` (ASCII range). -/
def pyIsSpace (c : Char) : Bool :=
  c = ' ' || c = '\t' || c = '\n' || c = '\r' || c = '\x0b' || c = '\x0c'

/-- ASCII alphabetic character. -/
def isAsciiAlpha (c : Char) : Bool :=
  ('a' ≤ c && c ≤ 'z') || ('A' ≤ c && c ≤ 'Z')

/-- ASCII digit, the regex class `\d`. -/
def isAsciiDigit (c : Char) : Bool :=
  '0' ≤ c && c ≤ '9'

/-- The regex class `\w` (ASCII range). -/
def isWordChar (c : Char) : Bool :=
  isAsciiAlpha c || isAsciiDigit c || c = '_'

/-- `str.lower` (ASCII range). -/
def pyLower (s : String) : String :=
  ⟨s.data.map Char.toLower⟩

/-- `str.strip` on a character list. -/
def stripList (l : List Char) : List Char :=
  ((l.dropWhile pyIsSpace).reverse.dropWhile pyIsSpace).reverse

/-- `str.strip`. -/
def pyStrip (s : String) : String :=
  ⟨stripList s.data⟩

/-- Does `hay` start with `needle`? -/
def listStarts : List Char → List Char → Bool
  | [], _ => true
  | _ :: _, [] => false
  | a :: as, b :: bs => a = b && listStarts as bs

/-- Substring containment on character lists (`needle in hay` for Python
strings). -/
def listSub (needle : List Char) : List Char → Bool
  | [] => needle.isEmpty
  | c :: cs => listStarts needle (c :: cs) || listSub needle cs

/-- Python's `needle in hay` on strings. -/
def pySub (needle hay : String) : Bool :=
  listSub needle.data hay.data

/-- Single pass behind `splitWsList`; `acc` is the current word, reversed. -/
def splitWsGo (acc : List Char) : List Char → List (List Char)
  | [] => if acc.isEmpty then [] else [acc.reverse]
  | c :: cs =>
    if pyIsSpace c then
      if acc.isEmpty then splitWsGo [] cs else acc.reverse :: splitWsGo [] cs
    else splitWsGo (c :: acc) cs

/-- `str.split()` (split on whitespace runs, dropping empty parts), on a
character list. -/
def splitWsList (l : List Char) : List (List Char) :=
  splitWsGo [] l

/-- `str.split()`. -/
def pySplitWs (s : String) : List String :=
  (splitWsList s.data).map (⟨·⟩)

/-- `str.split(d)` for a one-character separator (keeps empty parts). -/
def splitCharList (d : Char) : List Char → List (List Char)
  | [] => [[]]
  | c :: cs =>
    if c = d then [] :: splitCharList d cs
    else
      match splitCharList d cs with
      | [] => [[c]]
      | w :: ws => (c :: w) :: ws

/-- Fuel-indexed worker for `splitSubList`; the fuel is structural and never
runs out at the chosen initial value (one unit per consumed character). -/
def splitSubFuel (sep : List Char) : ℕ → List Char → List (List Char)
  | 0, _ => [[]]
  | _ + 1, [] => [[]]
  | fuel + 1, c :: cs =>
    if !sep.isEmpty && listStarts sep (c :: cs) then
      [] :: splitSubFuel sep fuel ((c :: cs).drop sep.length)
    else
      match splitSubFuel sep fuel cs with
      | [] => [[c]]
      | w :: ws => (c :: w) :: ws

/-- `str.split(sep)` for a multi-character separator (keeps empty parts). -/
def splitSubList (sep l : List Char) : List (List Char) :=
  splitSubFuel sep (l.length + 1) l

/-- `sep.join(parts)` on character lists. -/
def joinList (sep : List Char) : List (List Char) → List Char
  | [] => []
  | [x] => x
  | x :: xs => x ++ sep ++ joinList sep xs

/-- `str.title()` (ASCII range): a letter is uppercased when the previous
character is not a letter, lowercased otherwise. -/
def titleGo : Bool → List Char → List Char
  | _, [] => []
  | prevAlpha, c :: cs =>
    (if isAsciiAlpha c then
      (if prevAlpha then Char.toLower c else Char.toUpper c)
     else c) :: titleGo (isAsciiAlpha c) cs

/-- `str.title()` on a character list. -/
def titleList (l : List Char) : List Char :=
  titleGo false l

/-- `str.title()`. -/
def pyTitleStr (s : String) : String :=
  ⟨titleList s.data⟩

/-- Truncation toward zero, Python's `int(x)` on a float. -/
def pyInt (q : ℚ) : ℤ :=
  if 0 ≤ q then ⌊q⌋ else -⌊-q⌋

/-! ## Scans for the specific regular expressions used by the analyzer -/

/-- Search for `\d+t` for a literal character `t` (e.g. `\d+%`): succeeds
iff some digit is immediately followed by `t`. -/
def hasDigitThenChar (t : Char) : List Char → Bool
  | [] => false
  | a :: rest =>
    (isAsciiDigit a && (match rest with
      | b :: _ => b = t
      | [] => false)) || hasDigitThenChar t rest

/-- Search for `t\d` for a literal character `t` (e.g. `\$\d+`): succeeds iff
some occurrence of `t` is immediately followed by a digit. -/
def hasCharThenDigit (t : Char) : List Char → Bool
  | [] => false
  | a :: rest =>
    (a = t && (match rest with
      | b :: _ => isAsciiDigit b
      | [] => false)) || hasCharThenDigit t rest

/-- The count-unit words of the pattern
`\d+ (users|customers|projects|hours|days|months)`. -/
def countUnitWords : List (List Char) :=
  ["users", "customers", "projects", "hours", "days", "months"].map String.data

/-- Search for `\d+ (users|customers|projects|hours|days|months)`: succeeds
iff some digit is followed by a space and then one of the unit words. -/
def hasCountUnits : List Char → Bool
  | [] => false
  | a :: rest =>
    (isAsciiDigit a && (match rest with
      | b :: rest' => b = ' ' && countUnitWords.any (fun w => listStarts w rest')
      | [] => false)) || hasCountUnits rest

/-- Single pass behind `digitRuns`; `acc` is the current digit run,
reversed. -/
def digitRunsGo (acc : List Char) : List Char → List (List Char)
  | [] => if acc.isEmpty then [] else [acc.reverse]
  | c :: cs =>
    if isAsciiDigit c then digitRunsGo (c :: acc) cs
    else if acc.isEmpty then digitRunsGo [] cs
    else acc.reverse :: digitRunsGo [] cs

/-- `re.findall(r'\d+', s)`: the maximal digit runs, in order. -/
def digitRuns (l : List Char) : List (List Char) :=
  digitRunsGo [] l

/-! ## `resume_analyzer.py`: scores, keywords, roles, bullets, rewrites -/

/-- `normalize_score` (resume_analyzer.py line 25): clamp to `[0, 100]` then
truncate to an integer. -/
def normalize_score (value : ℚ) : ℤ :=
  pyInt (max 0 (min value 100))

/-- The external embedding provider: given the two (already truncated) texts
it returns a cosine similarity, or fails like a raised exception. -/
def Model : Type :=
  String → String → Except String ℚ

/-- `compute_similarity` (line 31): empty input short-circuits to `0`, both
texts are truncated to 2000 characters, a provider exception yields the
neutral `0.50`, and a successful similarity is clipped to `[0, 1]`. -/
def compute_similarity (model : Model) (text_a text_b : String) : ℚ :=
  if pyStrip text_a = "" || pyStrip text_b = "" then 0
  else
    match model ⟨text_a.data.take 2000⟩ ⟨text_b.data.take 2000⟩ with
    | Except.ok s => max 0 (min 1 s)
    | Except.error _ => 1/2

/-- `tech_keywords` (lines 53-88), in the textual order of the set literal. -/
def tech_keywords : List String :=
  [ "python", "java", "javascript", "typescript", "c++", "c#", "php",
    "ruby", "go", "rust", "kotlin", "swift", "r", "matlab", "scala",
    "html", "css", "react", "angular", "vue", "node", "nodejs", "express",
    "django", "flask", "fastapi", "spring", "asp.net", "nextjs", "nuxt",
    "sql", "mysql", "postgresql", "mongodb", "redis", "cassandra",
    "elasticsearch", "oracle", "sqlite", "dynamodb", "firebase",
    "aws", "azure", "gcp", "docker", "kubernetes", "jenkins", "ci/cd",
    "terraform", "ansible", "git", "github", "gitlab", "bitbucket",
    "tensorflow", "pytorch", "scikit-learn", "keras", "nlp", "computer vision",
    "deep learning", "machine learning", "neural networks", "pandas", "numpy",
    "data analysis", "data science", "opencv", "huggingface", "transformers",
    "android", "ios", "react native", "flutter", "xamarin",
    "spark", "hadoop", "airflow", "kafka", "etl", "data pipeline",
    "bigquery", "snowflake", "databricks",
    "pytest", "junit", "selenium", "jest", "cypress", "unit testing",
    "rest api", "graphql", "microservices", "agile", "scrum", "jira",
    "linux", "unix", "bash", "powershell", "api", "json", "xml" ]

/-- `extract_keywords` (line 51): the dictionary terms contained (as lowercase
substrings) in the text, as a list in dictionary order (modelling the set). -/
def extract_keywords (text : String) : List String :=
  tech_keywords.filter (fun k => pySub k (pyLower text))

/-- `role_patterns` (lines 231-272). -/
def role_patterns : List (String × List String) :=
  [ ("Data Scientist",
      ["data scien", "machine learning", "ml engineer", "statistical analysis",
       "predictive model", "data mining"]),
    ("AI/ML Engineer",
      ["ai engineer", "ml engineer", "deep learning", "neural network",
       "nlp", "computer vision", "artificial intelligence"]),
    ("Software Engineer",
      ["software engineer", "software developer", "backend", "frontend",
       "full stack", "application developer"]),
    ("Data Analyst",
      ["data analyst", "business analyst", "tableau", "power bi",
       "data visualization", "reporting"]),
    ("DevOps Engineer",
      ["devops", "site reliability", "ci/cd", "docker", "kubernetes",
       "infrastructure", "cloud engineer"]),
    ("Web Developer",
      ["web developer", "frontend developer", "react developer",
       "html", "css", "javascript developer"]),
    ("Mobile Developer",
      ["mobile developer", "android developer", "ios developer",
       "flutter", "react native"]),
    ("Data Engineer",
      ["data engineer", "etl", "data pipeline", "spark", "hadoop",
       "data warehouse"]),
    ("Product Manager",
      ["product manager", "product owner", "product management",
       "roadmap", "stakeholder"]),
    ("UI/UX Designer",
      ["ui designer", "ux designer", "user experience", "figma",
       "user interface", "wireframe"]) ]

/-- Number of indicator phrases of one role found in the (lowercased) job
description: `sum(1 for keyword in keywords if keyword in jd_lower)`. -/
def roleHits (jd_lower : String) (keywords : List String) : ℕ :=
  (keywords.filter (fun k => pySub k jd_lower)).length

/-- `detect_role_from_jd` (line 227): fold over the role dictionary keeping
the first role with the strictly largest hit count, starting from
`("General", 0)`. -/
def detect_role_from_jd (job_desc : String) : String :=
  let jd_lower := pyLower job_desc
  (role_patterns.foldl
    (fun best rk =>
      if roleHits jd_lower rk.2 > best.2 then (rk.1, roleHits jd_lower rk.2)
      else best)
    ("General", 0)).1

/-- Single pass behind `splitBullets`: after a delimiter the following
whitespace run (the `\s*` of the pattern) is consumed, tracked by
`skipWs`; `acc` is the current fragment, reversed. -/
def splitBulletsGo (skipWs : Bool) (acc : List Char) :
    List Char → List (List Char)
  | [] => [acc.reverse]
  | c :: cs =>
    if skipWs && pyIsSpace c then splitBulletsGo true acc cs
    else if c = '\n' || c = '•' || c = '·' || c = '-' || c = '*' then
      acc.reverse :: splitBulletsGo true [] cs
    else splitBulletsGo false (c :: acc) cs

/-- The split `re.split(r'[\n•·\-\*]\s*', text)` of `find_weak_bullets`:
split at each delimiter character, consuming the following whitespace run. -/
def splitBullets (l : List Char) : List (List Char) :=
  splitBulletsGo false [] l

/-- `weak_actions` (lines 293-296). -/
def weak_actions : List String :=
  [ "worked on", "helped", "involved", "participated", "did",
    "made", "was responsible", "handled", "dealt with" ]

/-- The metric search of `find_weak_bullets` (line 309):
`re.search(r'\d+%|\d+x|\d+\+|\$\d+', bullet.lower())`. -/
def bulletHasMetrics (lowered : List Char) : Bool :=
  hasDigitThenChar '%' lowered || hasDigitThenChar 'x' lowered ||
    hasDigitThenChar '+' lowered || hasCharThenDigit '$' lowered

/-- One bullet passes the weak-bullet filter (after stripping): length in
`[20, 200]`, a weak action phrase, and no digit metric. -/
def isWeakBullet (bullet : String) : Bool :=
  !(bullet.data.length < 20 || bullet.data.length > 200) &&
    weak_actions.any (fun a => pySub a (pyLower bullet)) &&
    !(bulletHasMetrics (pyLower bullet).data)

/-- The accumulation loop of `find_weak_bullets` (lines 298-312). -/
def weakLoop : List String → List String
  | [] => []
  | b :: bs =>
    let bullet := pyStrip b
    if bullet.data.length < 20 || bullet.data.length > 200 then weakLoop bs
    else if weak_actions.any (fun a => pySub a (pyLower bullet)) &&
        !(bulletHasMetrics (pyLower bullet).data) then
      bullet :: weakLoop bs
    else weakLoop bs

/-- `find_weak_bullets` (line 286). -/
def find_weak_bullets (resume_text : String) : List String :=
  weakLoop ((splitBullets resume_text.data).map (⟨·⟩))

/-- `role_verbs` (lines 324-332). -/
def role_verbs : List (String × String) :=
  [ ("Data Scientist", "Developed"),
    ("AI/ML Engineer", "Engineered"),
    ("Software Engineer", "Built"),
    ("Data Analyst", "Analyzed"),
    ("DevOps Engineer", "Automated"),
    ("Web Developer", "Designed"),
    ("Data Engineer", "Architected") ]

/-- Association-list lookup with default, Python's `dict.get(k, d)`. -/
def getD (m : List (String × String)) (k d : String) : String :=
  match m.find? (fun kv => kv.1 = k) with
  | some kv => kv.2
  | none => d

/-- `generate_rewrite_suggestion` (line 317): role verb (default
"Developed"), at most two technologies (default "modern tools"), and a metric
taken from the first number of the weak bullet (default "25%"), substituted
into a fixed sentence template. -/
def generate_rewrite_suggestion (weak_bullet detected_role : String)
    (tech_stack : List String) : String :=
  let numbers := (digitRuns weak_bullet.data).map (⟨·⟩)
  let verb := getD role_verbs detected_role "Developed"
  let tech :=
    if tech_stack.length ≥ 2 then
      ⟨joinList ", ".data ((tech_stack.take 2).map String.data)⟩
    else
      match tech_stack with
      | t :: _ => t
      | [] => "modern tools"
  let metric :=
    match numbers with
    | n :: _ => n ++ "%"
    | [] => "25%"
  verb ++ " a " ++ pyLower detected_role ++ " solution using " ++ tech ++
    ", improving performance by " ++ metric ++
    " and reducing processing time by 30%."

/-! ## `utils.py`: section dictionary and fuzzy header matching -/

/-- `SECTION_HEADERS` (utils.py lines 16-69). -/
def SECTION_HEADERS : List (String × List String) :=
  [ ("summary",
      ["summary", "professional summary", "career summary", "objective",
       "profile", "about me", "career objective", "professional profile",
       "executive summary", "introduction", "bio", "overview"]),
    ("skills",
      ["skills", "technical skills", "skills & tools", "core competencies",
       "technologies", "expertise", "proficiencies", "technical proficiencies",
       "key skills", "skillset", "technical expertise", "tools",
       "programming skills", "languages", "frameworks",
       "technical competencies"]),
    ("experience",
      ["experience", "work experience", "professional experience",
       "employment history", "work history", "career history", "employment",
       "professional background", "relevant experience", "internships",
       "internship experience"]),
    ("projects",
      ["projects", "academic projects", "personal projects", "key projects",
       "portfolio", "project work", "major projects", "research projects",
       "capstone projects", "selected projects"]),
    ("education",
      ["education", "academic background", "qualifications",
       "educational background", "academic qualifications", "degrees",
       "schooling", "academics"]),
    ("certifications",
      ["certifications", "courses", "licenses", "training",
       "professional development", "certificates", "credentials", "licensed",
       "accreditations", "online courses"]),
    ("achievements",
      ["achievements", "awards", "accomplishments", "honors", "recognition",
       "honors & awards", "distinctions", "accolades",
       "achievements & awards"]),
    ("languages",
      ["languages", "language proficiency", "linguistic skills",
       "language skills", "spoken languages", "languages known"]),
    ("publications",
      ["publications", "research papers", "papers", "published work",
       "research", "articles", "journal publications"]),
    ("volunteering",
      ["volunteering", "volunteer work", "volunteer experience",
       "community service", "social work", "extracurricular activities",
       "activities"]),
    ("interests",
      ["interests", "hobbies", "personal interests", "hobbies & interests",
       "extracurricular", "activities & interests"]),
    ("references",
      ["references", "referees", "professional references"]) ]

/-- The external `rapidfuzz` scorers used by `find_best_section`:
`fuzz.ratio`, `fuzz.partial_ratio` and `fuzz.token_sort_ratio`, kept
abstract. -/
structure Fuzz where
  ratioFn : String → String → ℚ
  partRatioFn : String → String → ℚ
  tokenRatioFn : String → String → ℚ

/-- The header normalisation of `find_best_section` (lines 73-77): lowercase,
strip, replace `[:\-–—_|]` by spaces, and re-join on single spaces. -/
def cleanHeaderText (h : String) : String :=
  let h1 := pyStrip (pyLower h)
  let h2 : List Char := h1.data.map (fun c =>
    if c = ':' || c = '-' || c = '–' || c = '—' || c = '_' || c = '|' then ' '
    else c)
  ⟨joinList " ".data (splitWsList h2)⟩

/-- Inner loop of `find_best_section` over one canonical section's variations:
an exact match returns the canonical name immediately (`Sum.inl`); otherwise
the best fuzzy score seen so far is threaded through (`Sum.inr`). -/
def fbsInner (fz : Fuzz) (h canonical : String) :
    List String → Option String × ℚ → String ⊕ (Option String × ℚ)
  | [], st => Sum.inr st
  | v :: vs, (bm, bs) =>
    if h = v then Sum.inl canonical
    else
      let m := max (fz.ratioFn h v) (max (fz.partRatioFn h v) (fz.tokenRatioFn h v))
      if m > bs then fbsInner fz h canonical vs (some canonical, m)
      else fbsInner fz h canonical vs (bm, bs)

/-- Outer loop of `find_best_section` over the section dictionary. -/
def fbsOuter (fz : Fuzz) (h : String) :
    List (String × List String) → Option String × ℚ →
      String ⊕ (Option String × ℚ)
  | [], st => Sum.inr st
  | (canon, vars) :: rest, st =>
    match fbsInner fz h canon vars st with
    | Sum.inl c => Sum.inl c
    | Sum.inr st' => fbsOuter fz h rest st'

/-- `find_best_section` (line 71): exact or best fuzzy match against the
section dictionary, accepted only at score `≥ 55`. -/
def find_best_section (fz : Fuzz) (header_text : String) : Option String :=
  match fbsOuter fz (cleanHeaderText header_text) SECTION_HEADERS (none, 0) with
  | Sum.inl c => some c
  | Sum.inr (bm, bs) => if bs ≥ 55 then bm else none

/-! ## `utils.py`: layout detection and text cleaning -/

/-- Search for `\w+\s{5,}\w+` in one line: a word character followed by a
whitespace run of length at least 5 and then a word character. -/
def lineHasColumns : List Char → Bool
  | [] => false
  | c :: cs =>
    (isWordChar c && (cs.takeWhile pyIsSpace).length ≥ 5 &&
      (match cs.drop (cs.takeWhile pyIsSpace).length with
       | d :: _ => isWordChar d
       | [] => false)) || lineHasColumns cs

/-- `detect_column_layout` (line 108): more than 3 of the first 50 lines
contain two text runs separated by at least 5 spaces. -/
def detect_column_layout (text : String) : Bool :=
  (((splitCharList '\n' text.data).take 50).filter lineHasColumns).length > 3

/-- Fuel-indexed worker for `splitWsRuns5`. -/
def splitWsRuns5Fuel : ℕ → List Char → List (List Char)
  | 0, _ => [[]]
  | _ + 1, [] => [[]]
  | fuel + 1, c :: cs =>
    if pyIsSpace c && (cs.takeWhile pyIsSpace).length ≥ 4 then
      [] :: splitWsRuns5Fuel fuel (cs.drop ((cs.takeWhile pyIsSpace).length))
    else
      match splitWsRuns5Fuel fuel cs with
      | [] => [[c]]
      | w :: ws => (c :: w) :: ws

/-- `re.split(r'\s{5,}', line)`: split at every maximal whitespace run of
length at least 5. -/
def splitWsRuns5 (l : List Char) : List (List Char) :=
  splitWsRuns5Fuel (l.length + 1) l

/-- `split_two_column_text` (line 123): split every line at 5-space runs and
emit each stripped nonempty fragment as its own line. -/
def split_two_column_text (text : String) : String :=
  let lines := splitCharList '\n' text.data
  let processed := lines.foldl
    (fun acc line =>
      acc ++ ((splitWsRuns5 line).map stripList).filter (fun p => p ≠ []))
    []
  ⟨joinList "\n".data processed⟩

/-- Index of the last `'\n'` in a list, if any. -/
def lastNl : List Char → Option ℕ
  | [] => none
  | c :: cs =>
    match lastNl cs with
    | some i => some (i + 1)
    | none => if c = '\n' then some 0 else none

/-- Single pass behind `collapseSpaces`: emit a space only when the previous
character was not one. -/
def collapseSpacesGo (prevSpace : Bool) : List Char → List Char
  | [] => []
  | c :: cs =>
    if c = ' ' then
      if prevSpace then collapseSpacesGo true cs
      else ' ' :: collapseSpacesGo true cs
    else c :: collapseSpacesGo false cs

/-- `re.sub(r' +', ' ', t)`: collapse space runs (spaces only) to one. -/
def collapseSpaces (l : List Char) : List Char :=
  collapseSpacesGo false l

/-- Fuel-indexed worker for `collapseNewlines`. -/
def collapseNewlinesFuel : ℕ → List Char → List Char
  | 0, l => l
  | _ + 1, [] => []
  | fuel + 1, c :: cs =>
    if c = '\n' then
      if ((cs.takeWhile pyIsSpace).filter (· = '\n')).length ≥ 2 then
        '\n' :: '\n' ::
          collapseNewlinesFuel fuel
            (cs.drop ((lastNl (cs.takeWhile pyIsSpace)).getD 0 + 1))
      else c :: collapseNewlinesFuel fuel cs
    else c :: collapseNewlinesFuel fuel cs

/-- `re.sub(r'\n\s*\n\s*\n+', '\n\n', t)`: a whitespace run containing at
least three newlines is replaced, up to its last newline, by exactly two. -/
def collapseNewlines (l : List Char) : List Char :=
  collapseNewlinesFuel (l.length + 1) l

/-- `clean_text` (line 140). -/
def clean_text (t : String) : String :=
  if t = "" then ""
  else pyStrip ⟨collapseNewlines (collapseSpaces t.data)⟩

/-! ## `utils.py`: the heading patterns of `parse_resume_sections`

Each of the six `heading_patterns` regexes (lines 183-201) is compiled by
hand into a scanner with `re.finditer` semantics (leftmost match,
non-overlapping, greedy quantifiers with backtracking). -/

/-- The group class `[A-Za-z &/]` of patterns 1-4 and 6. -/
def isHdrChar (c : Char) : Bool :=
  isAsciiAlpha c || c = ' ' || c = '&' || c = '/'

/-- The class `[A-Z]`. -/
def isUpperAZ (c : Char) : Bool :=
  'A' ≤ c && c ≤ 'Z'

/-- The class `[A-Z ]` of pattern 5. -/
def isCapsChar (c : Char) : Bool :=
  isUpperAZ c || c = ' '

/-- Greedy search for the longest group extension `L` (between `minL` and the
given bound) whose trailer matches; returns the pair of `L` and the trailer's
consumed length.  This mirrors a greedy `{m,n}` quantifier followed by the
rest of the pattern. -/
def greedyL (minL : ℕ) (ok : ℕ → Option ℕ) : ℕ → Option (ℕ × ℕ)
  | 0 => if minL = 0 then (ok 0).map (fun t => (0, t)) else none
  | L + 1 =>
    if L + 1 < minL then none
    else
      match ok (L + 1) with
      | some t => some (L + 1, t)
      | none => greedyL minL ok L

/-- Trailer `\s*\n`: consumed up to (and including) the last newline of the
maximal whitespace run, if that run contains one. -/
def trailerNL (tail : List Char) : Option ℕ :=
  (lastNl (tail.takeWhile pyIsSpace)).map (· + 1)

/-- Trailer `\s*t` for a non-whitespace literal `t` (`:` or `|`): the literal
must follow the maximal whitespace run. -/
def trailerChar (t : Char) (tail : List Char) : Option ℕ :=
  let w := tail.takeWhile pyIsSpace
  match tail.drop w.length with
  | d :: _ => if d = t then some (w.length + 1) else none
  | [] => none

/-- The dash class `[-–—_]` of pattern 4. -/
def isDashChar (c : Char) : Bool :=
  c = '-' || c = '–' || c = '—' || c = '_'

/-- Trailer `\s*[-–—_]{2,}`: a dash run of length at least 2 after the
maximal whitespace run (greedy: the whole dash run is consumed). -/
def trailerDashes (tail : List Char) : Option ℕ :=
  let w := tail.takeWhile pyIsSpace
  let d := (tail.drop w.length).takeWhile isDashChar
  if d.length ≥ 2 then some (w.length + d.length) else none

/-- Try one of the newline-anchored heading patterns at the current position:
literal `\n`, then `\s*`, then a group `firstOk (clsOk){minL,maxL}`, then the
trailer.  Returns the captured group and the total match length. -/
def tryHeaderNL (firstOk clsOk : Char → Bool) (minL maxL : ℕ)
    (trailer : List Char → Option ℕ) (s : List Char) :
    Option (List Char × ℕ) :=
  match s with
  | c :: rest =>
    if c = '\n' then
      let w := rest.takeWhile pyIsSpace
      match rest.drop w.length with
      | d :: r2 =>
        if firstOk d then
          match greedyL minL (fun L => trailer (r2.drop L))
              (min maxL (r2.takeWhile clsOk).length) with
          | some (L, t) => some (d :: r2.take L, 1 + w.length + 1 + L + t)
          | none => none
        else none
      | [] => none
    else none
  | [] => none

/-- Try pattern 6, `^([A-Za-z][A-Za-z &/]{2,40})\s*:`, at a line start. -/
def tryHeaderLS (s : List Char) : Option (List Char × ℕ) :=
  match s with
  | d :: r2 =>
    if isAsciiAlpha d then
      match greedyL 2 (fun L => trailerChar ':' (r2.drop L))
          (min 40 (r2.takeWhile isHdrChar).length) with
      | some (L, t) => some (d :: r2.take L, 1 + L + t)
      | none => none
    else none
  | [] => none

/-- Fuel-indexed worker for `finditerAt`. -/
def finditerAtFuel (tryMatch : List Char → Option (List Char × ℕ)) :
    ℕ → ℕ → List Char → List (List Char × ℕ × ℕ)
  | 0, _, _ => []
  | _ + 1, _, [] => []
  | fuel + 1, pos, c :: cs =>
    match tryMatch (c :: cs) with
    | some (g, len) =>
      (g, pos, pos + len) ::
        finditerAtFuel tryMatch fuel (pos + max 1 len) ((c :: cs).drop (max 1 len))
    | none => finditerAtFuel tryMatch fuel (pos + 1) cs

/-- `re.finditer` for a pattern matcher: scan left to right, skip over each
match (non-overlapping), and record `(group, start, end)`. -/
def finditerAt (tryMatch : List Char → Option (List Char × ℕ)) (pos : ℕ)
    (l : List Char) : List (List Char × ℕ × ℕ) :=
  finditerAtFuel tryMatch (l.length + 1) pos l

/-- Fuel-indexed worker for `finditerLS`. -/
def finditerLSFuel : ℕ → Bool → ℕ → List Char → List (List Char × ℕ × ℕ)
  | 0, _, _, _ => []
  | _ + 1, _, _, [] => []
  | fuel + 1, atLS, pos, c :: cs =>
    if atLS then
      match tryHeaderLS (c :: cs) with
      | some (g, len) =>
        (g, pos, pos + len) ::
          finditerLSFuel fuel false (pos + max 1 len) ((c :: cs).drop (max 1 len))
      | none => finditerLSFuel fuel (c = '\n') (pos + 1) cs
    else finditerLSFuel fuel (c = '\n') (pos + 1) cs

/-- `re.finditer` for the `^`-anchored pattern 6 under `re.MULTILINE`: a
match may start at position 0 or right after a newline; after a match the
scan resumes after the consumed `:`. -/
def finditerLS (atLS : Bool) (pos : ℕ) (l : List Char) :
    List (List Char × ℕ × ℕ) :=
  finditerLSFuel (l.length + 1) atLS pos l

/-- A located candidate header: stripped group text, match start, match
end. -/
structure HMatch where
  text : String
  start : ℕ
  ends : ℕ
deriving DecidableEq, Repr

/-- All candidate headers of the six patterns, in pattern order (lines
204-217), keeping only groups of at most five whitespace-separated words. -/
def allHeaderMatchers (text : List Char) : List HMatch :=
  let p1 := finditerAt (tryHeaderNL isAsciiAlpha isHdrChar 2 40 trailerNL) 0 text
  let p2 := finditerAt (tryHeaderNL isAsciiAlpha isHdrChar 2 40 (trailerChar ':')) 0 text
  let p3 := finditerAt (tryHeaderNL isAsciiAlpha isHdrChar 2 40 (trailerChar '|')) 0 text
  let p4 := finditerAt (tryHeaderNL isAsciiAlpha isHdrChar 2 40 trailerDashes) 0 text
  let p5 := finditerAt (tryHeaderNL isUpperAZ isCapsChar 3 40 trailerNL) 0 text
  let p6 := finditerLS true 0 text
  (p1 ++ p2 ++ p3 ++ p4 ++ p5 ++ p6).filterMap (fun m =>
    let ht := pyStrip ⟨m.1⟩
    if (pySplitWs ht).length ≤ 5 then some ⟨ht, m.2.1, m.2.2⟩ else none)

/-- Stable insertion keeping earlier elements first among equal starts. -/
def insertByStart (m : HMatch) : List HMatch → List HMatch
  | [] => [m]
  | x :: xs => if m.start ≤ x.start then m :: x :: xs else x :: insertByStart m xs

/-- Stable sort by match start (`all_matches.sort(key=lambda x: x['start'])`). -/
def sortByStart (l : List HMatch) : List HMatch :=
  l.foldr insertByStart []

/-- Duplicate removal (lines 222-229): keep a match only if its start is more
than 5 characters after the previously kept start (initially `-100`). -/
def dedupMatches : List HMatch → ℤ → List HMatch
  | [], _ => []
  | m :: ms, last =>
    if (m.start : ℤ) - last > 5 then m :: dedupMatches ms m.start
    else dedupMatches ms last

/-! ## `utils.py`: the segmenter itself -/

/-- Fuel-indexed worker for `titleCaseCaps`. -/
def titleCaseCapsFuel : ℕ → List Char → List Char
  | 0, l => l
  | _ + 1, [] => []
  | fuel + 1, c :: cs =>
    if c = '\n' then
      if (match cs.takeWhile isCapsChar with
          | r :: _ => isUpperAZ r
          | [] => false) && (cs.takeWhile isCapsChar).length ≥ 4 &&
          (cs.drop (cs.takeWhile isCapsChar).length).head? = some '\n' then
        '\n' :: (titleList (cs.takeWhile isCapsChar) ++ '\n' ::
          titleCaseCapsFuel fuel (cs.drop ((cs.takeWhile isCapsChar).length + 1)))
      else '\n' :: titleCaseCapsFuel fuel cs
    else c :: titleCaseCapsFuel fuel cs

/-- `str.title()` conversion of ALL CAPS heading lines (lines 176-180):
`re.sub(r"\n([A-Z][A-Z ]{3,})\n", ...)`; the trailing newline is consumed, so
scanning resumes after it. -/
def titleCaseCaps (l : List Char) : List Char :=
  titleCaseCapsFuel (l.length + 1) l

/-- Normalisation pipeline of `parse_resume_sections` before header search
(lines 168-180): `\r` to `\n`, optional two-column flattening, ALL CAPS
conversion. -/
def transformText (t : String) : List Char :=
  let t1 : List Char := t.data.map (fun c => if c = '\r' then '\n' else c)
  let t2 : List Char :=
    if detect_column_layout ⟨t1⟩ then (split_two_column_text ⟨t1⟩).data else t1
  titleCaseCaps t2

/-- The accepted candidate list: all pattern matches, stably sorted by start,
deduplicated with the 5-character gap rule. -/
def uniqueMatchesOf (text : List Char) : List HMatch :=
  dedupMatches (sortByStart (allHeaderMatchers text)) (-100)

/-- The section map with every canonical key and empty bodies
(`{k: "" for k in SECTION_HEADERS.keys()}`). -/
def baseSections : List (String × String) :=
  SECTION_HEADERS.map (fun p => (p.1, ""))

/-- `sections.get(k, "")`. -/
def getSec (m : List (String × String)) (k : String) : String :=
  getD m k ""

/-- `sections[k] = v` (assignment to an existing canonical key). -/
def setSec (m : List (String × String)) (k v : String) :
    List (String × String) :=
  m.map (fun kv => if kv.1 = k then (k, v) else kv)

/-- Body accumulation (lines 256-261): append with a blank-line separator if
the section already has content. -/
def addBody (m : List (String × String)) (best body : String) :
    List (String × String) :=
  if getSec m best ≠ "" then
    setSec m best (getSec m best ++ "\n\n" ++ clean_text body)
  else setSec m best (clean_text body)

/-- The match-processing loop of `parse_resume_sections` (lines 241-265):
each accepted header's body runs to the next kept match (or end of text) and
is routed through `find_best_section`. -/
def processMatches (fz : Fuzz) (text : List Char) :
    List HMatch → List (String × String) → List (String × String)
  | [], m => m
  | h :: rest, m =>
    processMatches fz text rest
      (if h.text = "" then m
       else
        let endPos := match rest with
          | h2 :: _ => h2.start
          | [] => text.length
        let body := pyStrip ⟨(text.take endPos).drop h.ends⟩
        match find_best_section fz h.text with
        | some best => addBody m best body
        | none => m)

/-- One step of the block loop of `fallback_extraction` (lines 282-297). -/
def fallbackStep (fz : Fuzz) (sections : List (String × String))
    (block0 : String) : List (String × String) :=
  let block := pyStrip block0
  if block = "" || block.data.length < 20 then sections
  else
    let lines := splitCharList '\n' block.data
    let first_line := pyStrip ⟨lines.headD []⟩
    match find_best_section fz first_line with
    | some ms =>
      let content : String := ⟨joinList "\n".data (lines.drop 1)⟩
      setSec sections ms (getSec sections ms ++ "\n" ++ clean_text content)
    | none =>
      setSec sections "summary"
        (getSec sections "summary" ++ "\n" ++ clean_text block)

/-- `fallback_extraction` (line 275): split the original text on blank lines;
stripped blocks shorter than 20 characters are skipped, blocks whose first
line matches a section header contribute their remaining lines to that
section, all other blocks accumulate into "summary". -/
def fallback_extraction (fz : Fuzz) (t : String) : List (String × String) :=
  ((splitSubList "\n\n".data t.data).map (fun l => (⟨l⟩ : String))).foldl
    (fallbackStep fz) baseSections

/-- `parse_resume_sections` (line 152): normalise, locate candidate headers,
route bodies; with no candidates the (transformed) text's first 500
characters become the summary; if all bodies end up empty, fall back to
`fallback_extraction` on the original text. -/
def parse_resume_sections (fz : Fuzz) (t : String) : List (String × String) :=
  let original_text := t
  let text := transformText t
  let um := uniqueMatchesOf text
  if um = [] then
    setSec baseSections "summary"
      (if text.length > 500 then (⟨text.take 500⟩ : String) else (⟨text⟩ : String))
  else
    let sections := processMatches fz text um baseSections
    if sections.all (fun kv => kv.2 = "") then fallback_extraction fz original_text
    else sections

/-! ## `resume_analyzer.py`: dynamic section scoring -/

/-- Round half to even, as used by Python's fixed-precision formatting. -/
def roundHalfEven (x : ℚ) : ℤ :=
  let f := ⌊x⌋
  let r := x - (f : ℚ)
  if r < 1/2 then f
  else if 1/2 < r then f + 1
  else if Even f then f else f + 1

/-- Python's `f"{q:.2%}"` for a nonnegative rational: two decimal places of
`q * 100`, followed by `%`. -/
def fmtPct (q : ℚ) : String :=
  let n : ℤ := roundHalfEven (q * 10000)
  let whole := n / 100
  let frac := (n % 100).toNat
  toString whole ++ "." ++
    (if frac < 10 then "0" ++ toString frac else toString frac) ++ "%"

/-- The quantifiable-metric patterns of `calculate_dynamic_section_score`
(lines 154-161), searched in the lowercased section content. -/
def hasMetricsPatterns (lowered : List Char) : Bool :=
  hasDigitThenChar '%' lowered || hasDigitThenChar 'x' lowered ||
    hasCharThenDigit '$' lowered || hasDigitThenChar '+' lowered ||
    hasDigitThenChar 'k' lowered || hasCountUnits lowered

/-- `strong_verbs` (lines 175-180). -/
def strong_verbs : List String :=
  [ "developed", "built", "created", "designed", "implemented",
    "engineered", "architected", "optimized", "improved", "increased",
    "reduced", "managed", "led", "coordinated", "established",
    "launched", "delivered", "achieved", "spearheaded", "pioneered" ]

/-- `weak_phrases` (lines 204-207). -/
def weak_phrases : List String :=
  [ "worked on", "helped with", "assisted in", "was responsible for",
    "duties included", "tasks included", "involved in" ]

/-- The `details` dictionary of a scored (non-empty) section; optional fields
model keys that are only inserted on some paths. -/
structure ScoreDetails where
  word_count : ℕ
  has_metrics : Bool
  strong_verbs_found : Option ℕ
  keyword_overlap : Option ℕ
  keyword_match_ratio : Option String
  has_weak_phrases : Option Bool
  base_similarity : String
  quality_bonus : ℤ
  final_score : ℤ
deriving DecidableEq, Repr

/-- The second component returned by `calculate_dynamic_section_score`: the
`reason`-shaped dictionary for an empty section, or the `details`-shaped
dictionary for a scored one; both carry the suggestion list. -/
inductive SectionDetails where
  | emptySec (reason : String) (suggestions : List String)
  | scored (details : ScoreDetails) (suggestions : List String)
deriving DecidableEq, Repr

/-- `d.get('suggestions', [])`. -/
def SectionDetails.suggList : SectionDetails → List String
  | .emptySec _ s => s
  | .scored _ s => s

/-- `calculate_dynamic_section_score` (line 96): 0 for an empty body,
otherwise 60% embedding similarity plus 40% quality bonus, clamped.  The
quality bonus adds points for word count in a per-section band, quantifiable
metrics, strong action verbs (experience/projects only), and keyword overlap
with the job description, minus a weak-phrase penalty. -/
def calculate_dynamic_section_score (model : Model)
    (section_content job_desc : String) (section_type : String) :
    ℤ × SectionDetails :=
  if pyStrip section_content = "" then
    (0, .emptySec "Empty section" ["Add content to this section"])
  else
    let similarity := compute_similarity model section_content job_desc
    let base_score := similarity * 100
    let word_count := (pySplitWs section_content).length
    let lenBranch : ℤ × List String :=
      if section_type = "summary" then
        if word_count ≥ 50 && word_count ≤ 150 then (20, [])
        else if word_count < 30 then (0, ["Summary too short (aim for 50-150 words)"])
        else (0, ["Summary too long (keep it concise)"])
      else if section_type = "skills" then
        if word_count ≥ 20 then (25, [])
        else (0, ["Add more skills relevant to the job"])
      else if section_type = "experience" then
        if word_count ≥ 100 then (25, [])
        else (0, ["Expand experience descriptions with more details"])
      else if section_type = "projects" then
        if word_count ≥ 80 then (20, [])
        else (0, ["Add more project details and outcomes"])
      else if section_type = "education" then
        if word_count ≥ 30 then (15, [])
        else (0, ["Include GPA/CGPA and relevant coursework"])
      else (0, [])
    let has_metrics := hasMetricsPatterns (pyLower section_content).data
    let metricsBranch : ℤ × List String :=
      if has_metrics then (15, [])
      else
        (0, if section_type = "experience" || section_type = "projects" then
              ["Add quantifiable metrics (%, numbers, impact)"]
            else [])
    let isXP := section_type = "experience" || section_type = "projects"
    let verb_count := (strong_verbs.filter
      (fun v => pySub v (pyLower section_content))).length
    let verbsBranch : ℤ × List String :=
      if isXP then
        (if verb_count ≥ 3 then (10, []) else (0, ["Use more strong action verbs"]))
      else (0, [])
    let section_keywords := extract_keywords section_content
    let jd_keywords := extract_keywords job_desc
    let keyword_overlap :=
      (section_keywords.filter (fun k => jd_keywords.contains k)).length
    let keyword_match_ratio : ℚ :=
      (keyword_overlap : ℚ) / (jd_keywords.length : ℚ)
    let kwBonus : ℤ :=
      if jd_keywords ≠ [] then pyInt (keyword_match_ratio * 30) else 0
    let has_weak_phrases :=
      weak_phrases.any (fun p => pySub p (pyLower section_content))
    let weakBranch : ℤ × List String :=
      if has_weak_phrases then (-10, ["Replace weak phrases with strong action verbs"])
      else (0, [])
    let quality_score :=
      lenBranch.1 + metricsBranch.1 + verbsBranch.1 + kwBonus + weakBranch.1
    let final0 := pyInt (base_score * (3/5) + (quality_score : ℚ) * (2/5))
    let final_score := normalize_score (final0 : ℚ)
    (final_score,
      .scored
        { word_count := word_count
          has_metrics := has_metrics
          strong_verbs_found := if isXP then some verb_count else none
          keyword_overlap := if jd_keywords ≠ [] then some keyword_overlap else none
          keyword_match_ratio :=
            if jd_keywords ≠ [] then some (fmtPct keyword_match_ratio) else none
          has_weak_phrases := if has_weak_phrases then some true else none
          base_similarity := fmtPct similarity
          quality_bonus := quality_score
          final_score := final_score }
        (lenBranch.2 ++ metricsBranch.2 ++ verbsBranch.2 ++ weakBranch.2))

/-! ## `resume_analyzer.py`: the analysis pipeline -/

/-- `section_weights` (lines 368-374). -/
def section_weights : List (String × ℚ) :=
  [ ("summary", 1/10), ("skills", 1/4), ("experience", 7/20),
    ("projects", 1/5), ("education", 1/10) ]

/-- The per-section scoring loop of `analyze_resume` (lines 376-389):
accumulates scores, details, and the weighted total, in weight order. -/
def sectionEvals (model : Model) (sections : List (String × String))
    (job_desc : String) :
    List (String × ℤ) × List (String × SectionDetails) × ℚ :=
  section_weights.foldl
    (fun acc sw =>
      let content := pyStrip (getSec sections sw.1)
      let r := calculate_dynamic_section_score model content job_desc sw.1
      (acc.1 ++ [(sw.1, r.1)], acc.2.1 ++ [(sw.1, r.2)],
        acc.2.2 + (r.1 : ℚ) * sw.2))
    ([], [], 0)

/-- Python's `sorted` on strings: ascending code-point lexicographic order. -/
def sortStrings (l : List String) : List String :=
  l.insertionSort (· ≤ ·)

/-- `', '.join(l)`. -/
def joinComma (l : List String) : String :=
  ⟨joinList ", ".data (l.map String.data)⟩

/-- `section_details[sec]` lookup. -/
def getDetails (l : List (String × SectionDetails)) (k : String) :
    SectionDetails :=
  match l.find? (fun kv => kv.1 = k) with
  | some kv => kv.2
  | none => .emptySec "" []

/-- The metric search of the suggestion block (line 429):
`re.search(r'\d+%|\d+x|\$\d+', resume_text)` on the raw resume text. -/
def resumeHasMetrics (resume_text : String) : Bool :=
  hasDigitThenChar '%' resume_text.data || hasDigitThenChar 'x' resume_text.data ||
    hasCharThenDigit '$' resume_text.data

/-- The engine's output record (`analyze_resume`'s result dictionary). -/
structure AnalysisResult where
  ats_score : ℤ
  global_similarity : String
  section_scores : List (String × ℤ)
  section_details : List (String × SectionDetails)
  missing_keywords : List String
  extra_keywords : List String
  detected_role : String
  weak_bullet : String
  weak_bullets : List String
  rewrite_suggestion : String
  suggestions : List String
  tech_stack : List String
  word_count : ℕ
  sections_found : List String
deriving DecidableEq, Repr

/-- Input validation of `analyze_resume` (lines 355-356). -/
def validateResume (r : String) : String :=
  if pyStrip r = "" then "No resume text provided" else r

/-- Input validation of `analyze_resume` (lines 357-358). -/
def validateJD (j : String) : String :=
  if pyStrip j = "" then "No job description provided" else j

/-- The `try` body of `analyze_resume` (lines 351-463). -/
def analyzeCore (model : Model) (fz : Fuzz) (resume_text0 job_desc0 : String) :
    AnalysisResult :=
  let resume_text := validateResume resume_text0
  let job_desc := validateJD job_desc0
  let global_similarity := compute_similarity model resume_text job_desc
  let global_ats_score := normalize_score (global_similarity * 100)
  let sections := parse_resume_sections fz resume_text
  let ev := sectionEvals model sections job_desc
  let section_scores := ev.1
  let section_details := ev.2.1
  let weighted_total := ev.2.2
  let final_ats := normalize_score
    ((pyInt ((global_ats_score : ℚ) * (3/10) + weighted_total * (7/10)) : ℤ) : ℚ)
  let resume_keywords := extract_keywords resume_text
  let jd_keywords := extract_keywords job_desc
  let missing_keywords :=
    sortStrings (jd_keywords.filter (fun k => !(resume_keywords.contains k)))
  let extra_keywords :=
    sortStrings (resume_keywords.filter (fun k => !(jd_keywords.contains k)))
  let detected_role := detect_role_from_jd job_desc
  let weak_bullets := find_weak_bullets resume_text
  let weak_bullet :=
    match weak_bullets with
    | b :: _ => b
    | [] => "Worked on a project without metrics"
  let rewrite :=
    generate_rewrite_suggestion weak_bullet detected_role (resume_keywords.take 3)
  let word_count := (pySplitWs resume_text).length
  let suggestions :=
    (if missing_keywords.length > 0 then
      ["Add " ++ toString missing_keywords.length ++ " missing keywords: " ++
        joinComma (missing_keywords.take 5)]
     else []) ++
    (section_scores.foldl
      (fun acc ss =>
        if ss.2 < 60 then
          match (getDetails section_details ss.1).suggList with
          | s :: _ => acc ++ [pyTitleStr ss.1 ++ ": " ++ s]
          | [] => acc
        else acc)
      []) ++
    (if !(resumeHasMetrics resume_text) then
      ["Add quantifiable metrics (%, $, numbers) to demonstrate impact"]
     else []) ++
    (if weak_bullets.length > 3 then
      ["Replace weak phrases with strong action verbs"]
     else []) ++
    (if final_ats < 70 then
      ["Use standard section headers (Experience, Education, Skills)"]
     else []) ++
    (if word_count < 300 then ["Resume is too short - aim for 400-600 words"]
     else if word_count > 800 then ["Resume is too long - keep it concise (1-2 pages)"]
     else [])
  { ats_score := final_ats
    global_similarity := fmtPct global_similarity
    section_scores := section_scores
    section_details := section_details
    missing_keywords := missing_keywords.take 10
    extra_keywords := extra_keywords.take 10
    detected_role := detected_role
    weak_bullet := weak_bullet
    weak_bullets := weak_bullets.take 3
    rewrite_suggestion := rewrite
    suggestions := suggestions.take 8
    tech_stack := resume_keywords.take 10
    word_count := word_count
    sections_found := (sections.filter (fun kv => pyStrip kv.2 ≠ "")).map Prod.fst }

/-- The fixed fallback result of the top-level `except` branch of
`analyze_resume` (lines 465-490). -/
def errorFallback (e : String) : AnalysisResult :=
  { ats_score := 50
    global_similarity := "0%"
    section_scores :=
      [("skills", 40), ("experience", 40), ("projects", 30),
       ("education", 30), ("summary", 40)]
    section_details := []
    missing_keywords := []
    extra_keywords := []
    detected_role := "General"
    weak_bullet := ""
    weak_bullets := []
    rewrite_suggestion := ""
    suggestions := ["Error analyzing resume: " ++ (⟨e.data.take 100⟩ : String)]
    tech_stack := []
    word_count := 0
    sections_found := [] }

/-- `analyze_resume` (line 347): the whole pipeline runs under a
`try/except`; the only modelled exception source that reaches the top level
is `get_model()` (the similarity provider catches its own exceptions), so the
model loader is passed as an `Except` value and its failure takes the
fallback branch. -/
def analyze_resume (gm : Except String Model) (fz : Fuzz)
    (resume_text job_desc : String) : AnalysisResult :=
  match gm with
  | Except.ok model => analyzeCore model fz resume_text job_desc
  | Except.error e => errorFallback e

/-! ## Concrete environments used for witnesses and counterexamples -/

/-- A fuzzy scorer that gives every non-exact comparison score 0: below the
acceptance threshold, so only the exact-match short-circuit fires. -/
def fuzzZero : Fuzz :=
  ⟨fun _ _ => 0, fun _ _ => 0, fun _ _ => 0⟩

/-- A deterministic embedding provider with constant similarity 1/2. -/
def modelHalf : Model :=
  fun _ _ => Except.ok (1/2)

/-- A deterministic embedding provider with constant similarity 4/5 (so the
global ATS score is 80). -/
def modelHigh : Model :=
  fun _ _ => Except.ok (4/5)

/-! ## Specification-side formulations

Independent restatements of what the claims assert, to be compared with the
definitions above (which are transcribed from the source). -/

/-- Specification reading of role detection with flat scoring: if no role's
hit count is positive the result is "General"; otherwise the first role (in
dictionary order) whose hit count equals the maximum. -/
def detect_role_spec (jd : String) : String :=
  let jdl := pyLower jd
  let m := (role_patterns.map (fun rk => roleHits jdl rk.2)).foldl max 0
  if m = 0 then "General"
  else
    match role_patterns.find? (fun rk => roleHits jdl rk.2 = m) with
    | some rk => rk.1
    | none => "General"

/-- Role detection as asserted by the claim: each phrase of the fixed role
dictionary is a primary (+5) or a secondary (+1) indicator, and the same
strict-argmax selection runs on the weighted sums. -/
def weighted_detect (w : String → String → ℕ) (jd : String) : String :=
  let jdl := pyLower jd
  (role_patterns.foldl
    (fun best rk =>
      let score := (rk.2.filter (fun k => pySub k jdl)).foldl
        (fun a ph => a + w rk.1 ph) 0
      if score > best.2 then (rk.1, score) else best)
    ("General", 0)).1

/-- The claim about role detection: for some assignment of weight 5
("primary") or 1 ("secondary") to each indicator phrase, with every role
having at least one phrase of each kind, the detector agrees with the
weighted argmax on every job description. -/
def ClaimC2 : Prop :=
  ∃ w : String → String → ℕ,
    (∀ role ph, w role ph = 5 ∨ w role ph = 1) ∧
    (∀ p ∈ role_patterns,
      (∃ ph ∈ p.2, w p.1 ph = 5) ∧ (∃ ph ∈ p.2, w p.1 ph = 1)) ∧
    (∀ jd, detect_role_from_jd jd = weighted_detect w jd)

/-- The claim about graceful section-score defaults: whenever segmentation of
the (validated) resume leaves every section body empty, the per-section
scores are not all zero (the spec says they default to offsets around the
global score instead). -/
def ClaimC3 : Prop :=
  ∀ (gm : Except String Model) (fz : Fuzz) (r j : String),
    (∀ sec ∈ parse_resume_sections fz (validateResume r), pyStrip sec.2 = "") →
    ¬ ((analyze_resume gm fz r j).section_scores.all (fun ss => ss.2 = 0))

/-- The claim about the rewrite template: the verb, role and metric phrase
are all selected from fixed role-keyed tables, so the suggestion is a
function of the detected role and the technology list alone. -/
def ClaimC4 : Prop :=
  ∃ f : String → List String → String,
    ∀ b role ts, generate_rewrite_suggestion b role ts = f role ts

/-- Spec-side verb table of the rewrite template (default "Developed"). -/
def rewriteVerbSpec (role : String) : String :=
  if role = "Data Scientist" then "Developed"
  else if role = "AI/ML Engineer" then "Engineered"
  else if role = "Software Engineer" then "Built"
  else if role = "Data Analyst" then "Analyzed"
  else if role = "DevOps Engineer" then "Automated"
  else if role = "Web Developer" then "Designed"
  else if role = "Data Engineer" then "Architected"
  else "Developed"

/-- The first maximal digit run of a string, if any. -/
def firstDigitRun : List Char → Option (List Char)
  | [] => none
  | c :: cs =>
    if isAsciiDigit c then some (c :: cs.takeWhile isAsciiDigit)
    else firstDigitRun cs

/-- Spec-side metric of the rewrite template: the first number of the weak
bullet with a percent sign, or "25%". -/
def rewriteMetricSpec (b : String) : String :=
  match firstDigitRun b.data with
  | some ds => (⟨ds⟩ : String) ++ "%"
  | none => "25%"

/-- Spec-side technology slot of the rewrite template: at most two
technologies, "modern tools" if none. -/
def rewriteTechSpec (ts : List String) : String :=
  match ts.take 2 with
  | [] => "modern tools"
  | [t] => t
  | t1 :: t2 :: _ => t1 ++ ", " ++ t2

/-- The candidate headers accepted by the fuzzy matching step. -/
def acceptedHeaders (fz : Fuzz) (t : String) : List HMatch :=
  (uniqueMatchesOf (transformText t)).filter
    (fun m => (find_best_section fz m.text).isSome)

/-- The claim about segmentation fallback: whenever zero headers are
accepted, the segmenter's output is that of the paragraph-based
`fallback_extraction`. -/
def ClaimC5 : Prop :=
  ∀ (fz : Fuzz) (t : String),
    acceptedHeaders fz t = [] →
    parse_resume_sections fz t = fallback_extraction fz t

/-- Declarative per-section formulation of `fallback_extraction`: each
canonical section collects, from the stripped blocks of at least 20
characters, the cleaned remainders of blocks whose first line matches it;
"summary" additionally collects every unmatched block whole. -/
def specFallback (fz : Fuzz) (t : String) : List (String × String) :=
  let blocks := ((splitSubList "\n\n".data t.data).map
      (fun l => pyStrip (⟨l⟩ : String))).filter
      (fun b => b ≠ "" && b.data.length ≥ 20)
  SECTION_HEADERS.map (fun p =>
    (p.1,
      blocks.foldl
        (fun acc b =>
          let lines := splitCharList '\n' b.data
          match find_best_section fz (pyStrip ⟨lines.headD []⟩) with
          | some c =>
            if c = p.1 then
              acc ++ "\n" ++ clean_text (⟨joinList "\n".data (lines.drop 1)⟩ : String)
            else acc
          | none =>
            if p.1 = "summary" then acc ++ "\n" ++ clean_text b else acc)
        ""))

/-- Spec-side keyword gap: dictionary terms found in the job description but
not in the resume, sorted ascending. -/
def missingSpec (r j : String) : List String :=
  sortStrings (tech_keywords.filter
    (fun k => pySub k (pyLower j) && !(pySub k (pyLower r))))

/-- Spec-side converse keyword gap: dictionary terms found in the resume but
not in the job description, sorted ascending. -/
def extraSpec (r j : String) : List String :=
  sortStrings (tech_keywords.filter
    (fun k => pySub k (pyLower r) && !(pySub k (pyLower j))))

/-- The claim about the keyword gap lists: for EVERY input pair, the result's
`missing_keywords` and `extra_keywords` are the sorted capped set differences
of the dictionary terms found in the raw inputs themselves. -/
def ClaimC6 : Prop :=
  ∀ (m : Model) (fz : Fuzz) (r j : String),
    (analyze_resume (Except.ok m) fz r j).missing_keywords =
      (missingSpec r j).take 10 ∧
    (analyze_resume (Except.ok m) fz r j).extra_keywords =
      (extraSpec r j).take 10

/-- The metric pattern asserted by the weak-bullet claim: percentage,
multiplier, currency, or one of the words increased/improved/reduced/saved. -/
def claimMetricPattern (b : String) : Bool :=
  hasDigitThenChar '%' (pyLower b).data || hasDigitThenChar 'x' (pyLower b).data ||
    hasCharThenDigit '$' (pyLower b).data ||
    ["increased", "improved", "reduced", "saved"].any
      (fun w => pySub w (pyLower b))

/-- Weak-bullet classification as asserted by the claim. -/
def claimWeakBullet (b : String) : Bool :=
  !(b.data.length < 20 || b.data.length > 200) &&
    weak_actions.any (fun a => pySub a (pyLower b)) &&
    !(claimMetricPattern b)

/-- The claim about weak-bullet detection: bullets are the split fragments,
and a fragment is collected exactly when it passes `claimWeakBullet`. -/
def ClaimC7 : Prop :=
  ∀ t : String,
    find_weak_bullets t =
      ((splitBullets t.data).map (fun l => pyStrip (⟨l⟩ : String))).filter
        claimWeakBullet

/-- Declarative weak-bullet collection with the digit-only metric filter of
the source. -/
def weakBulletSpecFilter (t : String) : List String :=
  ((splitBullets t.data).map (fun l => pyStrip (⟨l⟩ : String))).filter
    isWeakBullet

/-! ## Helper lemmas -/

theorem pyInt_of_nonneg {q : ℚ} (h : 0 ≤ q) : pyInt q = ⌊q⌋ := by
  simp [pyInt, h]

theorem normalize_score_nonneg (q : ℚ) : 0 ≤ normalize_score q := by
  unfold normalize_score
  rw [pyInt_of_nonneg (le_max_left _ _)]
  exact Int.le_floor.mpr (by exact_mod_cast le_max_left _ _)

theorem normalize_score_le (q : ℚ) : normalize_score q ≤ 100 := by
  unfold normalize_score
  rw [pyInt_of_nonneg (le_max_left _ _)]
  have h1 : max 0 (min q 100) ≤ (100 : ℚ) :=
    max_le (by norm_num) (min_le_right _ _)
  calc ⌊max 0 (min q 100)⌋ ≤ ⌊(100 : ℚ)⌋ := Int.floor_le_floor h1
    _ = 100 := by norm_num

theorem digitRunsGo_head (acc : List Char) (h : acc ≠ []) :
    ∀ cs, (digitRunsGo acc cs).head? = some (acc.reverse ++ cs.takeWhile isAsciiDigit)
  | [] => by simp [digitRunsGo, h]
  | c :: cs => by
    by_cases hd : isAsciiDigit c
    · rw [show digitRunsGo acc (c :: cs) = digitRunsGo (c :: acc) cs by
        simp [digitRunsGo, hd]]
      rw [digitRunsGo_head (c :: acc) (by simp) cs]
      simp [hd, List.takeWhile_cons]
    · simp [digitRunsGo, hd, List.isEmpty_iff, h, List.takeWhile_cons]

theorem digitRuns_head (l : List Char) :
    (digitRuns l).head? = firstDigitRun l := by
  induction l with
  | nil => rfl
  | cons c cs ih =>
    by_cases hd : isAsciiDigit c
    · rw [show digitRuns (c :: cs) = digitRunsGo [c] cs by simp [digitRuns, digitRunsGo, hd]]
      rw [digitRunsGo_head [c] (by simp) cs]
      simp [firstDigitRun, hd]
    · rw [show digitRuns (c :: cs) = digitRuns cs by simp [digitRuns, digitRunsGo, hd]]
      rw [ih]
      simp [firstDigitRun, hd]

theorem rewrite_verb_eq (role : String) :
    getD role_verbs role "Developed" = rewriteVerbSpec role := by
  by_cases h1 : role = "Data Scientist"
  · subst h1; decide
  by_cases h2 : role = "AI/ML Engineer"
  · subst h2; decide
  by_cases h3 : role = "Software Engineer"
  · subst h3; decide
  by_cases h4 : role = "Data Analyst"
  · subst h4; decide
  by_cases h5 : role = "DevOps Engineer"
  · subst h5; decide
  by_cases h6 : role = "Web Developer"
  · subst h6; decide
  by_cases h7 : role = "Data Engineer"
  · subst h7; decide
  simp [getD, role_verbs, rewriteVerbSpec, List.find?,
    Ne.symm h1, Ne.symm h2, Ne.symm h3, Ne.symm h4, Ne.symm h5, Ne.symm h6,
    Ne.symm h7, h1, h2, h3, h4, h5, h6, h7]

theorem string_mk_append (a b : List Char) :
    (⟨a ++ b⟩ : String) = (⟨a⟩ : String) ++ (⟨b⟩ : String) := by
  rfl

/-! ## Claim C1: the analyzer never raises and falls back to a fixed result -/

/-- **C1.** `analyze_resume` never raises: in this embedding it is a total
function into `AnalysisResult`, and the only modelled exception source (the
model loader) is an `Except` parameter.  When an exception occurs (the
`Except.error` case), the call returns the fixed, structurally complete
fallback: `ats_score` 50, fixed mid-range section scores, empty keyword
lists, detected role "General", and a generic error-analyzing-resume
suggestion. -/
theorem claim_C1_fallback (e : String) (fz : Fuzz) (r j : String) :
    (analyze_resume (Except.error e) fz r j).ats_score = 50 ∧
    (analyze_resume (Except.error e) fz r j).section_scores =
      [("skills", 40), ("experience", 40), ("projects", 30),
       ("education", 30), ("summary", 40)] ∧
    (analyze_resume (Except.error e) fz r j).missing_keywords = [] ∧
    (analyze_resume (Except.error e) fz r j).extra_keywords = [] ∧
    (analyze_resume (Except.error e) fz r j).detected_role = "General" ∧
    (analyze_resume (Except.error e) fz r j).suggestions =
      ["Error analyzing resume: " ++ (⟨e.data.take 100⟩ : String)] ∧
    analyze_resume (Except.error e) fz r j = errorFallback e :=
  ⟨rfl, rfl, rfl, rfl, rfl, rfl, rfl⟩

/-! ## Claim C9: the ATS score is an integer in [0, 100] -/

/-- **C9.** For every input pair (and every model/fuzzy environment,
including the fallback path), the `ats_score` field is an integer between 0
and 100. -/
theorem claim_C9_ats_range (gm : Except String Model) (fz : Fuzz)
    (r j : String) :
    0 ≤ (analyze_resume gm fz r j).ats_score ∧
      (analyze_resume gm fz r j).ats_score ≤ 100 := by
  cases gm with
  | error e =>
    constructor <;> norm_num [analyze_resume, errorFallback]
  | ok m =>
    have h : ∃ q, (analyze_resume (Except.ok m) fz r j).ats_score =
        normalize_score q := ⟨_, rfl⟩
    obtain ⟨q, hq⟩ := h
    rw [hq]
    exact ⟨normalize_score_nonneg q, normalize_score_le q⟩

/-! ## Claim C4: the rewrite template -/

/-- **C4, counterexample.**  The claim says the metric phrase is chosen from
a fixed role-category-keyed set, which would make the suggestion a function
of the detected role and technology list alone; but the suggestion also
depends on the numbers inside the weak bullet, so no such function exists. -/
theorem claim_C4_counterexample : ¬ ClaimC4 := by
  rintro ⟨f, hf⟩
  have h := (hf "Worked on x for 7 hours" "Data Scientist" []).trans
    (hf "Worked on tasks" "Data Scientist" []).symm
  exact absurd h (by decide)

/-- **C4, amended.**  The rewrite suggestion is the template
`"{Verb} a {role} solution using {tech}, improving performance by {metric}
and reducing processing time by 30%."` where the verb comes from the fixed
role-to-verb table (default "Developed"), at most two technologies are
inserted (default "modern tools"), and the metric is the first number
occurring in the weak bullet suffixed with `%` (default "25%") — not a
role-category-keyed phrase. -/
theorem claim_C4_amended (b role : String) (ts : List String) :
    generate_rewrite_suggestion b role ts =
      rewriteVerbSpec role ++ " a " ++ pyLower role ++ " solution using " ++
        rewriteTechSpec ts ++ ", improving performance by " ++
        rewriteMetricSpec b ++ " and reducing processing time by 30%." := by
  unfold generate_rewrite_suggestion
  rw [rewrite_verb_eq]
  have htech :
      (if ts.length ≥ 2 then
        (⟨joinList ", ".data ((ts.take 2).map String.data)⟩ : String)
       else
        match ts with
        | t :: _ => t
        | [] => "modern tools") = rewriteTechSpec ts := by
    match ts with
    | [] => rfl
    | [t] => rfl
    | t1 :: t2 :: rest =>
      rw [if_pos (by simp)]
      show (⟨joinList ", ".data [t1.data, t2.data]⟩ : String) = _
      rw [show joinList ", ".data [t1.data, t2.data] =
        t1.data ++ ", ".data ++ t2.data from rfl]
      rw [string_mk_append, string_mk_append]
      rfl
  have hmet :
      (match (digitRuns b.data).map (fun l => (⟨l⟩ : String)) with
        | n :: _ => n ++ "%"
        | [] => "25%") = rewriteMetricSpec b := by
    unfold rewriteMetricSpec
    rw [← digitRuns_head b.data]
    cases h : digitRuns b.data with
    | nil => rfl
    | cons d ds => rfl
  simp only [htech, hmet]

/-! ## Claim C7: weak-bullet detection -/

/-- **C7, counterexample.**  The claim's metric pattern includes the words
increased/improved/reduced/saved, but the code's metric check is digit-based
only (`\d+%|\d+x|\d+\+|\$\d+`): a bullet with a weak action and the word
"improved" but no digits is still collected by the code, while the claim
says it is excluded. -/
theorem claim_C7_counterexample : ¬ ClaimC7 := by
  intro h
  exact absurd (h "Worked on the data pipeline and improved its reliability")
    (by decide)

/-- **C7, amended.**  A stripped fragment is weak exactly when its length is
in `[20, 200]`, it contains a phrase from the fixed weak-action list, and it
contains no digit-based metric pattern (`\d+%`, `\d+x`, `\d+\+`, `\$\d+`;
the words increased/improved/reduced/saved are not checked); weak fragments
are collected in document order.  In particular, in a resume containing the
two scenario bullets, "Worked on a dashboard" is collected and "Improved
dashboard load time by 40%" is not. -/
theorem claim_C7_amended :
    (∀ t : String, find_weak_bullets t = weakBulletSpecFilter t) ∧
    find_weak_bullets
      "Worked on a dashboard\nImproved dashboard load time by 40%" =
      ["Worked on a dashboard"] ∧
    "Improved dashboard load time by 40%" ∉
      find_weak_bullets
        "Worked on a dashboard\nImproved dashboard load time by 40%" := by
  refine ⟨fun t => ?_, by decide, by decide⟩
  unfold find_weak_bullets weakBulletSpecFilter
  generalize (splitBullets t.data) = frags
  induction frags with
  | nil => rfl
  | cons b bs ih =>
    simp only [List.map_cons, List.filter_cons, weakLoop, isWeakBullet,
      Bool.or_eq_true, Bool.and_eq_true, Bool.not_eq_true', decide_eq_true_eq,
      Bool.or_eq_false_iff, decide_eq_false_iff_not, ih]
    split_ifs with h1 h2 h3 h4 <;> first | rfl | tauto

/-! ## Claim C8: the segmenter always returns all twelve canonical keys -/

theorem setSec_keys (m : List (String × String)) (k v : String) :
    (setSec m k v).map Prod.fst = m.map Prod.fst := by
  unfold setSec
  rw [List.map_map]
  apply List.map_congr_left
  intro kv _
  by_cases h : kv.1 = k <;> simp [h]

theorem addBody_keys (m : List (String × String)) (best body : String) :
    (addBody m best body).map Prod.fst = m.map Prod.fst := by
  unfold addBody
  split_ifs <;> exact setSec_keys _ _ _

theorem processMatches_keys (fz : Fuzz) (text : List Char) :
    ∀ (ms : List HMatch) (m : List (String × String)),
      (processMatches fz text ms m).map Prod.fst = m.map Prod.fst
  | [], m => rfl
  | h :: rest, m => by
    simp only [processMatches]
    rw [processMatches_keys fz text rest]
    by_cases he : h.text = ""
    · simp [he]
    · simp only [he, if_false]
      cases find_best_section fz h.text with
      | none => rfl
      | some best => exact addBody_keys _ _ _

theorem fallbackStep_keys (fz : Fuzz) (acc : List (String × String))
    (b : String) :
    (fallbackStep fz acc b).map Prod.fst = acc.map Prod.fst := by
  unfold fallbackStep
  dsimp only
  split_ifs
  · rfl
  · cases hfb : find_best_section fz
      (pyStrip ⟨(splitCharList '\n' (pyStrip b).data).headD []⟩) with
    | none => simp only [hfb]; exact setSec_keys _ _ _
    | some ms => simp only [hfb]; exact setSec_keys _ _ _

theorem fallback_fold_keys (fz : Fuzz) (blocks : List String) :
    ∀ acc : List (String × String),
      (blocks.foldl (fallbackStep fz) acc).map Prod.fst = acc.map Prod.fst := by
  induction blocks with
  | nil => intro acc; rfl
  | cons b bs ih =>
    intro acc
    rw [List.foldl_cons, ih]
    exact fallbackStep_keys fz acc b

theorem fallback_extraction_keys (fz : Fuzz) (t : String) :
    (fallback_extraction fz t).map Prod.fst = baseSections.map Prod.fst := by
  unfold fallback_extraction
  exact fallback_fold_keys fz _ baseSections

/-- **C8.** For every input string the segmenter returns a map containing
every one of the twelve canonical section names as a key (empty string
bodies in the worst case); in this embedding `parse_resume_sections` is a
total function, mirroring the contract that it never raises. -/
theorem claim_C8_keys (fz : Fuzz) (t : String) :
    (parse_resume_sections fz t).map Prod.fst =
      ["summary", "skills", "experience", "projects", "education",
       "certifications", "achievements", "languages", "publications",
       "volunteering", "interests", "references"] := by
  simp only [parse_resume_sections]
  split_ifs with h1 h2 h3
  · rw [setSec_keys]
    rfl
  · rw [setSec_keys]
    rfl
  · rw [fallback_extraction_keys]
    rfl
  · rw [processMatches_keys]
    rfl

/-! ## Claim C10: the placeholder weak bullet -/

/-- **C10.**  When the resume contains no weak bullets, `analyze_resume`
still sets `weak_bullet` to the fixed placeholder and derives the rewrite
suggestion from it, while the `weak_bullets` list is empty — the caller can
receive a non-empty `weak_bullet` and a rewrite although the resume has no
weak bullet. -/
theorem claim_C10_placeholder (m : Model) (fz : Fuzz) (r j : String)
    (h1 : pyStrip r ≠ "") (h2 : find_weak_bullets r = []) :
    (analyze_resume (Except.ok m) fz r j).weak_bullet =
      "Worked on a project without metrics" ∧
    (analyze_resume (Except.ok m) fz r j).weak_bullets = [] ∧
    (analyze_resume (Except.ok m) fz r j).rewrite_suggestion =
      generate_rewrite_suggestion "Worked on a project without metrics"
        (detect_role_from_jd (validateJD j))
        ((extract_keywords r).take 3) := by
  have hv : validateResume r = r := if_neg h1
  have e1 : (analyze_resume (Except.ok m) fz r j).weak_bullet =
      (match find_weak_bullets (validateResume r) with
        | b :: _ => b
        | [] => "Worked on a project without metrics") := rfl
  have e2 : (analyze_resume (Except.ok m) fz r j).weak_bullets =
      (find_weak_bullets (validateResume r)).take 3 := rfl
  have e3 : (analyze_resume (Except.ok m) fz r j).rewrite_suggestion =
      generate_rewrite_suggestion
        (match find_weak_bullets (validateResume r) with
          | b :: _ => b
          | [] => "Worked on a project without metrics")
        (detect_role_from_jd (validateJD j))
        ((extract_keywords (validateResume r)).take 3) := rfl
  rw [hv, h2] at e1 e2 e3
  exact ⟨e1, e2, e3⟩

/-- Witness for C10 at a concrete resume without weak bullets. -/
theorem claim_C10_witness :
    pyStrip "Led many teams to victory over the years" ≠ "" ∧
    find_weak_bullets "Led many teams to victory over the years" = [] ∧
    (analyze_resume (Except.ok modelHalf) fuzzZero
      "Led many teams to victory over the years"
      "We need a Python expert").weak_bullet =
      "Worked on a project without metrics" :=
  ⟨by decide, by decide,
    (claim_C10_placeholder modelHalf fuzzZero
      "Led many teams to victory over the years" "We need a Python expert"
      (by decide) (by decide)).1⟩

/-! ## Claim C6: keyword gap analysis -/

theorem extract_filter_eq (a b : String) :
    (extract_keywords a).filter
      (fun k => !((extract_keywords b).contains k)) =
    tech_keywords.filter
      (fun k => pySub k (pyLower a) && !(pySub k (pyLower b))) := by
  unfold extract_keywords
  rw [List.filter_filter]
  apply List.filter_congr
  intro k hk
  have hc : (tech_keywords.filter
      (fun k' => pySub k' (pyLower b))).contains k = pySub k (pyLower b) := by
    cases hsub : pySub k (pyLower b) with
    | true =>
      simp [List.elem_eq_mem, List.mem_filter, hk, hsub]
    | false =>
      simp [List.elem_eq_mem, List.mem_filter, hsub]
  rw [hc]
  rw [Bool.and_comm]

/-- **C6, counterexample.**  The claim quantifies over every input pair, but
the analyzer substitutes placeholder text for blank inputs before extracting
keywords: at resume "" and job description "r", the resume becomes "No
resume text provided", which contains the dictionary term "r" as a
substring, so the code computes missing_keywords = [] while the claimed
difference of the raw inputs is ["r"]. -/
theorem claim_C6_counterexample : ¬ ClaimC6 := by
  intro h
  exact absurd (h modelHalf fuzzZero "" "r").1 (by decide)

/-- **C6, amended.**  For every input pair (no restriction),
`missing_keywords` is exactly the list of dictionary terms found (by
lowercase substring containment) in the VALIDATED job description but not in
the VALIDATED resume — a blank input is first replaced by its fixed
placeholder text — sorted ascending and capped at 10; `extra_keywords` is
the converse difference with the same sort and cap; the two lists are
disjoint.  At the concrete scenario inputs, `missing_keywords` is exactly
`["kubernetes"]`, so it contains "kubernetes" and neither "python" nor
"sql". -/
theorem claim_C6_amended :
    (∀ (m : Model) (fz : Fuzz) (r j : String),
      (analyze_resume (Except.ok m) fz r j).missing_keywords =
        (missingSpec (validateResume r) (validateJD j)).take 10 ∧
      (analyze_resume (Except.ok m) fz r j).extra_keywords =
        (extraSpec (validateResume r) (validateJD j)).take 10 ∧
      ∀ k, k ∈ (analyze_resume (Except.ok m) fz r j).missing_keywords →
        k ∉ (analyze_resume (Except.ok m) fz r j).extra_keywords) ∧
    (analyze_resume (Except.ok modelHalf) fuzzZero "Skills\nPython, SQL, Docker"
      "We need a Python and Kubernetes expert").missing_keywords =
      ["kubernetes"] := by
  constructor
  · intro m fz r j
    have e1 : (analyze_resume (Except.ok m) fz r j).missing_keywords =
        (sortStrings ((extract_keywords (validateJD j)).filter
          (fun k => !((extract_keywords (validateResume r)).contains k)))).take 10 :=
      rfl
    have e2 : (analyze_resume (Except.ok m) fz r j).extra_keywords =
        (sortStrings ((extract_keywords (validateResume r)).filter
          (fun k => !((extract_keywords (validateJD j)).contains k)))).take 10 :=
      rfl
    rw [extract_filter_eq] at e1
    rw [extract_filter_eq] at e2
    refine ⟨e1, e2, ?_⟩
    intro k hk1 hk2
    rw [e1] at hk1
    rw [e2] at hk2
    unfold sortStrings at hk1 hk2
    have m1 := (List.perm_insertionSort (fun a b => a ≤ b) _).mem_iff.mp
      (List.mem_of_mem_take hk1)
    have m2 := (List.perm_insertionSort (fun a b => a ≤ b) _).mem_iff.mp
      (List.mem_of_mem_take hk2)
    have p1 := (List.mem_filter.mp m1).2
    have p2 := (List.mem_filter.mp m2).2
    rw [Bool.and_eq_true, Bool.not_eq_true'] at p1 p2
    rw [p1.2] at p2
    exact absurd p2.1 (by simp)
  · decide

/-! ## Claim C3: section scores when no sections are detected -/

/-- **C3, counterexample.**  At a concrete input on which segmentation leaves
every section body empty (a single unmatched candidate header and a fallback
block below the 20-character threshold) and the global similarity is 0.8
(global ATS score 80), every per-section score is 0: the scores do not
default to offsets around the global score. -/
theorem claim_C3_counterexample : ¬ ClaimC3 := by
  intro h
  exact h (Except.ok modelHigh) fuzzZero "Zxqwv Kjhgf:\nabc" "hiring wizards"
    (by decide) (by decide)

/-- **C3, amended.**  If segmentation of the (validated) resume leaves every
section body empty, all five weighted section scores are 0 — not offsets
around the global score — and the final ATS score degrades to the clamped
truncation of 30% of the global ATS score alone. -/
theorem claim_C3_amended (m : Model) (fz : Fuzz) (r j : String)
    (h : ∀ sec ∈ parse_resume_sections fz (validateResume r),
      pyStrip sec.2 = "") :
    (analyze_resume (Except.ok m) fz r j).section_scores =
      [("summary", 0), ("skills", 0), ("experience", 0),
       ("projects", 0), ("education", 0)] ∧
    (analyze_resume (Except.ok m) fz r j).ats_score =
      normalize_score
        ((pyInt ((normalize_score
          (compute_similarity m (validateResume r) (validateJD j) * 100) : ℚ) *
            (3/10)) : ℤ) : ℚ) := by
  have hsec : ∀ n, pyStrip
      (getSec (parse_resume_sections fz (validateResume r)) n) = "" := by
    intro n
    unfold getSec getD
    cases hf : (parse_resume_sections fz (validateResume r)).find?
        (fun kv => kv.1 = n) with
    | none => rfl
    | some kv => exact h kv (List.mem_of_find?_eq_some hf)
  have hc : ∀ ty : String,
      calculate_dynamic_section_score m "" (validateJD j) ty =
        (0, SectionDetails.emptySec "Empty section"
          ["Add content to this section"]) := fun _ => rfl
  have hev : sectionEvals m (parse_resume_sections fz (validateResume r))
      (validateJD j) =
      ([("summary", 0), ("skills", 0), ("experience", 0),
        ("projects", 0), ("education", 0)],
       [("summary", SectionDetails.emptySec "Empty section"
          ["Add content to this section"]),
        ("skills", SectionDetails.emptySec "Empty section"
          ["Add content to this section"]),
        ("experience", SectionDetails.emptySec "Empty section"
          ["Add content to this section"]),
        ("projects", SectionDetails.emptySec "Empty section"
          ["Add content to this section"]),
        ("education", SectionDetails.emptySec "Empty section"
          ["Add content to this section"])], 0) := by
    simp only [sectionEvals, section_weights, List.foldl, hsec, hc]
    norm_num
  constructor
  · show (sectionEvals m (parse_resume_sections fz (validateResume r))
      (validateJD j)).1 = _
    rw [hev]
  · show normalize_score
      ((pyInt ((normalize_score
        (compute_similarity m (validateResume r) (validateJD j) * 100) : ℚ) *
          (3/10) +
        (sectionEvals m (parse_resume_sections fz (validateResume r))
          (validateJD j)).2.2 * (7/10)) : ℤ) : ℚ) = _
    rw [hev]
    norm_num

/-- Witness for the amended C3 at the concrete all-empty-sections input. -/
theorem claim_C3_amended_witness :
    (∀ sec ∈ parse_resume_sections fuzzZero
        (validateResume "Zxqwv Kjhgf:\nabc"), pyStrip sec.2 = "") ∧
    (analyze_resume (Except.ok modelHigh) fuzzZero "Zxqwv Kjhgf:\nabc"
      "hiring wizards").section_scores =
      [("summary", 0), ("skills", 0), ("experience", 0),
       ("projects", 0), ("education", 0)] :=
  ⟨by decide,
    (claim_C3_amended modelHigh fuzzZero "Zxqwv Kjhgf:\nabc" "hiring wizards"
      (by decide)).1⟩

/-! ## Claim C5: the paragraph fallback of the segmenter -/

/-- **C5, counterexample.**  At `"skills\npython java sql and more stuff
here"` no candidate header is found at all, so zero headers are accepted;
but the segmenter returns the whole text as the summary (early return)
instead of running the paragraph fallback, which would have routed the
content into the skills section. -/
theorem claim_C5_counterexample : ¬ ClaimC5 := by
  intro h
  have := h fuzzZero "skills\npython java sql and more stuff here" (by decide)
  exact absurd this (by decide)

theorem processMatches_none (fz : Fuzz) (text : List Char) :
    ∀ (ms : List HMatch) (m : List (String × String)),
      (∀ hm ∈ ms, find_best_section fz hm.text = none) →
      processMatches fz text ms m = m
  | [], _, _ => rfl
  | h :: rest, m, hall => by
    simp only [processMatches]
    rw [processMatches_none fz text rest _
      (fun x hx => hall x (List.mem_cons_of_mem _ hx))]
    by_cases he : h.text = ""
    · simp [he]
    · simp only [he, if_false]
      rw [hall h (List.mem_cons_self _ _)]

theorem fbsInner_inl (fz : Fuzz) (h canon : String) :
    ∀ (vs : List String) (st : Option String × ℚ) (x : String),
      fbsInner fz h canon vs st = Sum.inl x → x = canon
  | [], _, x, hx => by simp [fbsInner] at hx
  | v :: vs, st, x, hx => by
    rw [fbsInner] at hx
    by_cases he : h = v
    · rw [if_pos he] at hx
      cases hx
      rfl
    · rw [if_neg he] at hx
      dsimp only at hx
      split at hx <;> exact fbsInner_inl fz h canon vs _ x hx

theorem fbsInner_inr (fz : Fuzz) (h canon : String) :
    ∀ (vs : List String) (st st' : Option String × ℚ),
      fbsInner fz h canon vs st = Sum.inr st' →
      st'.1 = st.1 ∨ st'.1 = some canon
  | [], st, st', hx => by
    simp only [fbsInner] at hx
    cases hx
    left
    rfl
  | v :: vs, st, st', hx => by
    rw [fbsInner] at hx
    by_cases he : h = v
    · rw [if_pos he] at hx
      simp at hx
    · rw [if_neg he] at hx
      dsimp only at hx
      split at hx
      · rcases fbsInner_inr fz h canon vs _ st' hx with h1 | h1
        · right
          exact h1
        · right
          exact h1
      · exact fbsInner_inr fz h canon vs _ st' hx

theorem fbsOuter_inl (fz : Fuzz) (h : String) :
    ∀ (l : List (String × List String)) (st : Option String × ℚ) (x : String),
      fbsOuter fz h l st = Sum.inl x → x ∈ l.map Prod.fst
  | [], _, x, hx => by simp [fbsOuter] at hx
  | (canon, vars) :: rest, st, x, hx => by
    rw [fbsOuter] at hx
    cases hi : fbsInner fz h canon vars st with
    | inl c =>
      rw [hi] at hx
      cases hx
      have hc := fbsInner_inl fz h canon vars st _ hi
      simp [hc]
    | inr st' =>
      rw [hi] at hx
      simp only [List.map_cons, List.mem_cons]
      right
      exact fbsOuter_inl fz h rest st' x hx

theorem fbsOuter_inr (fz : Fuzz) (h : String) :
    ∀ (l : List (String × List String)) (st st' : Option String × ℚ),
      fbsOuter fz h l st = Sum.inr st' →
      st'.1 = st.1 ∨ ∃ c ∈ l.map Prod.fst, st'.1 = some c
  | [], st, st', hx => by
    simp only [fbsOuter] at hx
    cases hx
    left
    rfl
  | (canon, vars) :: rest, st, st', hx => by
    rw [fbsOuter] at hx
    cases hi : fbsInner fz h canon vars st with
    | inl c =>
      rw [hi] at hx
      cases hx
    | inr st2 =>
      rw [hi] at hx
      rcases fbsOuter_inr fz h rest st2 st' hx with h1 | ⟨c, hc, h1⟩
      · rcases fbsInner_inr fz h canon vars st st2 hi with h2 | h2
        · left
          rw [h1, h2]
        · right
          exact ⟨canon, by simp, by rw [h1, h2]⟩
      · right
        exact ⟨c, by simp [hc], h1⟩

theorem find_best_section_mem (fz : Fuzz) (h c : String)
    (hx : find_best_section fz h = some c) :
    c ∈ SECTION_HEADERS.map Prod.fst := by
  unfold find_best_section at hx
  cases ho : fbsOuter fz (cleanHeaderText h) SECTION_HEADERS (none, 0) with
  | inl x =>
    rw [ho] at hx
    cases hx
    exact fbsOuter_inl fz _ SECTION_HEADERS (none, 0) _ ho
  | inr st' =>
    rw [ho] at hx
    obtain ⟨bm, bs⟩ := st'
    dsimp only at hx
    split_ifs at hx
    rcases fbsOuter_inr fz _ SECTION_HEADERS (none, 0) (bm, bs) ho
      with h1 | ⟨c2, hc2, h1⟩
    · rw [hx] at h1
      cases h1
    · rw [hx] at h1
      cases h1
      exact hc2

theorem setSec_not_mem (m : List (String × String)) (c v : String)
    (hc : c ∉ m.map Prod.fst) : setSec m c v = m := by
  induction m with
  | nil => rfl
  | cons kv rest ih =>
    have h1 : ¬(kv.1 = c) := fun hh => hc (by simp [← hh])
    have h2 : c ∉ rest.map Prod.fst := fun hh => hc (by simp [hh])
    simp only [setSec, List.map_cons, if_neg h1]
    exact congrArg (kv :: ·) (ih h2)

theorem getSec_setSec (m : List (String × String)) (k c v : String)
    (hc : c ∈ m.map Prod.fst) :
    getSec (setSec m c v) k = if k = c then v else getSec m k := by
  induction m with
  | nil => simp at hc
  | cons kv rest ih =>
    simp only [setSec, List.map_cons]
    by_cases h1 : kv.1 = c
    · rw [if_pos h1]
      by_cases h2 : k = c
      · subst h2
        simp [getSec, getD, List.find?]
      · have hck : ¬(((c, v) : String × String).1 = k) :=
          fun hh => h2 hh.symm
        have hkk : ¬(kv.1 = k) := by
          rw [h1]
          exact fun hh => h2 hh.symm
        simp only [getSec, getD]
        rw [List.find?_cons_of_neg _ (by simpa using hck),
          List.find?_cons_of_neg _ (by simpa using hkk)]
        by_cases hcr : c ∈ rest.map Prod.fst
        · have := ih hcr
          simp only [getSec, getD, setSec] at this
          simp only [this, if_neg h2]
        · rw [show List.map (fun kv => if kv.1 = c then (c, v) else kv) rest =
            rest from setSec_not_mem rest c v hcr]
          simp [if_neg h2]
    · rw [if_neg h1]
      by_cases h2 : kv.1 = k
      · have hkc : ¬(k = c) := fun hh => h1 (h2.trans hh)
        simp only [getSec, getD, List.find?]
        simp [h2, hkc]
      · have hcr : c ∈ rest.map Prod.fst := by
          rcases List.mem_cons.mp hc with h | h
          · exact absurd h.symm h1
          · exact h
        have := ih hcr
        simp only [getSec, getD, setSec] at this
        simp only [getSec, getD]
        rw [List.find?_cons_of_neg _ (by simpa using h2),
          List.find?_cons_of_neg _ (by simpa using h2)]
        exact this

theorem assoc_ext :
    ∀ (xs ys : List (String × String)),
      xs.map Prod.fst = ys.map Prod.fst →
      (xs.map Prod.fst).Nodup →
      (∀ k, k ∈ xs.map Prod.fst → getSec xs k = getSec ys k) →
      xs = ys
  | [], ys, hk, _, _ => (List.map_eq_nil.mp hk.symm).symm
  | (k0, v0) :: xs, ys, hk, hnd, hpt => by
    cases ys with
    | nil => simp at hk
    | cons y ys =>
      obtain ⟨hk0, hktail⟩ := by simpa using hk
      have hv : v0 = y.2 := by
        have := hpt k0 (by simp)
        simp only [getSec, getD, List.find?] at this
        simpa [hk0] using this
      rw [List.map_cons] at hnd
      have hnd' := List.nodup_cons.mp hnd
      have htail : xs = ys := by
        apply assoc_ext xs ys hktail hnd'.2
        intro k hkm
        have hne : ¬(k0 = k) := fun hh => hnd'.1 (hh ▸ hkm)
        have := hpt k (by simp [hkm])
        simp only [getSec, getD] at this ⊢
        rw [List.find?_cons_of_neg _ (by simpa using hne),
          List.find?_cons_of_neg _ (by rw [← hk0]; simpa using hne)] at this
        exact this
      cases y with
      | mk yk yv =>
        simp only at hk0 hv
        rw [htail, hk0, hv]

theorem getSec_map_apply (g : String → String) :
    ∀ (l : List (String × List String)) (k : String),
      k ∈ l.map Prod.fst →
      getSec (l.map (fun p => (p.1, g p.1))) k = g k
  | [], k, hk => by simp at hk
  | (k0, _) :: rest, k, hk => by
    by_cases h : k0 = k
    · subst h
      simp [getSec, getD, List.find?]
    · simp only [List.map_cons, getSec, getD]
      rw [List.find?_cons_of_neg _ (by simpa using h)]
      have hk' : k ∈ rest.map Prod.fst := by
        rw [List.map_cons] at hk
        rcases List.mem_cons.mp hk with h1 | h1
        · exact absurd h1.symm h
        · exact h1
      have := getSec_map_apply g rest k hk'
      simpa [getSec, getD] using this

theorem getSec_fallback_fold (fz : Fuzz) (k : String) (bs : List String) :
    ∀ (acc : List (String × String)),
      acc.map Prod.fst = SECTION_HEADERS.map Prod.fst →
      getSec (bs.foldl (fallbackStep fz) acc) k =
        ((bs.map pyStrip).filter
            (fun b => b ≠ "" && b.data.length ≥ 20)).foldl
          (fun a b =>
            let lines := splitCharList '\n' b.data
            match find_best_section fz (pyStrip ⟨lines.headD []⟩) with
            | some c =>
              if c = k then
                a ++ "\n" ++ clean_text (⟨joinList "\n".data (lines.drop 1)⟩ : String)
              else a
            | none =>
              if k = "summary" then a ++ "\n" ++ clean_text b else a)
          (getSec acc k) := by
  induction bs with
  | nil => intro acc _; rfl
  | cons b bs ih =>
    intro acc hacc
    rw [List.foldl_cons, ih (fallbackStep fz acc b)
      (by rw [fallbackStep_keys]; exact hacc)]
    by_cases hskip : pyStrip b = "" ∨ (pyStrip b).data.length < 20
    · have h1 : fallbackStep fz acc b = acc := by
        unfold fallbackStep
        rw [if_pos (by simpa using hskip)]
      have h2 : (pyStrip b ≠ "" && (pyStrip b).data.length ≥ 20) = false := by
        rcases hskip with h | h
        · simp [h]
        · have hlt : ¬((pyStrip b).data.length ≥ 20) := by omega
          simp [hlt]
          intro _
          exact h
      rw [h1, List.map_cons, List.filter_cons]
      simp only [h2, Bool.false_eq_true, if_false]
    · push_neg at hskip
      have h2 : (pyStrip b ≠ "" && (pyStrip b).data.length ≥ 20) = true := by
        have hge : (pyStrip b).data.length ≥ 20 := by omega
        simp [hskip.1, hge]
        exact hge
      rw [List.map_cons, List.filter_cons]
      simp only [h2, if_true]
      rw [List.foldl_cons]
      refine congrArg (fun a => List.foldl _ a _) ?_
      unfold fallbackStep
      rw [if_neg (by
        have hlt : ¬((pyStrip b).data.length < 20) := by omega
        simp [hskip.1, hlt]
        exact hskip.2)]
      dsimp only
      cases hfb : find_best_section fz
          (pyStrip ⟨(splitCharList '\n' (pyStrip b).data).headD []⟩) with
      | some c =>
        rw [getSec_setSec _ k c _
          (by rw [hacc]; exact find_best_section_mem fz _ c hfb)]
        by_cases hkc : k = c
        · subst hkc
          simp
        · rw [if_neg hkc]
          dsimp only
          rw [if_neg (fun hh : c = k => hkc hh.symm)]
      | none =>
        rw [getSec_setSec _ k "summary" _ (by rw [hacc]; decide)]
        by_cases hks : k = "summary"
        · subst hks
          simp
        · rw [if_neg hks]
          dsimp only
          rw [if_neg hks]

theorem fallback_extraction_eq_spec (fz : Fuzz) (t : String) :
    fallback_extraction fz t = specFallback fz t := by
  unfold fallback_extraction specFallback
  apply assoc_ext
  · rw [fallback_fold_keys]
    simp [baseSections, List.map_map, Function.comp]
  · rw [fallback_fold_keys]
    decide
  · intro k hk
    rw [fallback_fold_keys] at hk
    have hbk : k ∈ SECTION_HEADERS.map Prod.fst := by
      simpa [baseSections, List.map_map, Function.comp] using hk
    rw [getSec_fallback_fold fz k _ baseSections (by decide)]
    rw [show getSec baseSections k = "" from
      getSec_map_apply (fun _ => "") SECTION_HEADERS k hbk]
    have hG := getSec_map_apply
      (fun x =>
        ((((splitSubList "\n\n".data t.data).map
            (fun l => pyStrip (⟨l⟩ : String)))).filter
            (fun b => b ≠ "" && b.data.length ≥ 20)).foldl
          (fun acc b =>
            let lines := splitCharList '\n' b.data
            match find_best_section fz (pyStrip ⟨lines.headD []⟩) with
            | some c =>
              if c = x then
                acc ++ "\n" ++
                  clean_text (⟨joinList "\n".data (lines.drop 1)⟩ : String)
              else acc
            | none =>
              if x = "summary" then acc ++ "\n" ++ clean_text b else acc)
          "")
      SECTION_HEADERS k hbk
    refine Eq.trans ?_ hG.symm
    rw [List.map_map]
    rfl

/-- **C5, amended.**  The paragraph fallback runs only when at least one
candidate header was located but none was accepted: then the segmenter's
output is `fallback_extraction` on the original text, which (second
conjunct, unconditionally) routes stripped blocks of at least 20 characters
by their first line — matched blocks to their canonical section (body: the
remaining lines), unmatched ones to "summary" — and silently drops shorter
blocks.  (When no candidate header exists at all, the segmenter instead
returns the first 500 characters of the text as the summary; see the
counterexample.) -/
theorem claim_C5_amended (fz : Fuzz) (t : String) :
    (uniqueMatchesOf (transformText t) ≠ [] →
     (∀ hm ∈ uniqueMatchesOf (transformText t),
        find_best_section fz hm.text = none) →
     parse_resume_sections fz t = fallback_extraction fz t) ∧
    fallback_extraction fz t = specFallback fz t := by
  constructor
  · intro hne hnone
    simp only [parse_resume_sections]
    rw [if_neg hne]
    rw [processMatches_none fz (transformText t)
      (uniqueMatchesOf (transformText t)) baseSections hnone]
    rw [if_pos (by decide)]
  · exact fallback_extraction_eq_spec fz t

/-- Witness for the amended C5 at a concrete input with one unaccepted
candidate header. -/
theorem claim_C5_witness :
    uniqueMatchesOf (transformText
      "Zxqwv Kjhgf:\nsome paragraph content that is long enough to count here") ≠ [] ∧
    (∀ hm ∈ uniqueMatchesOf (transformText
        "Zxqwv Kjhgf:\nsome paragraph content that is long enough to count here"),
      find_best_section fuzzZero hm.text = none) ∧
    parse_resume_sections fuzzZero
      "Zxqwv Kjhgf:\nsome paragraph content that is long enough to count here" =
      fallback_extraction fuzzZero
        "Zxqwv Kjhgf:\nsome paragraph content that is long enough to count here" :=
  ⟨by decide, by decide,
    (claim_C5_amended fuzzZero
      "Zxqwv Kjhgf:\nsome paragraph content that is long enough to count here").1
      (by decide) (by decide)⟩

/-! ## Claim C2: role detection -/

theorem le_foldl_max (l : List ℕ) : ∀ b : ℕ, b ≤ l.foldl max b := by
  induction l with
  | nil => intro b; exact le_refl b
  | cons x xs ih =>
    intro b
    exact le_trans (le_max_left b x) (ih (max b x))

theorem mem_le_foldl_max (l : List ℕ) : ∀ b : ℕ, ∀ x ∈ l, x ≤ l.foldl max b := by
  induction l with
  | nil => intro b x hx; cases hx
  | cons y ys ih =>
    intro b x hx
    rcases List.mem_cons.mp hx with h | h
    · subst h
      exact le_trans (le_max_right b x) (le_foldl_max ys (max b x))
    · exact ih (max b y) x h

theorem foldl_best_const (sc : (String × List String) → ℕ)
    (nm : (String × List String) → String) (l : List (String × List String)) :
    ∀ b : String × ℕ, (∀ x ∈ l, sc x ≤ b.2) →
      l.foldl (fun best rk => if sc rk > best.2 then (nm rk, sc rk) else best) b
        = b := by
  induction l with
  | nil => intro b _; rfl
  | cons x xs ih =>
    intro b hle
    rw [List.foldl_cons,
      if_neg (by have := hle x (List.mem_cons_self x xs); omega)]
    exact ih b (fun y hy => hle y (List.mem_cons_of_mem x hy))

theorem foldl_best_find (sc : (String × List String) → ℕ)
    (nm : (String × List String) → String) (l : List (String × List String)) :
    ∀ b : String × ℕ, b.2 < (l.map sc).foldl max b.2 →
      ∃ x, l.find? (fun y => sc y = (l.map sc).foldl max b.2) = some x ∧
        sc x = (l.map sc).foldl max b.2 ∧
        l.foldl (fun best rk => if sc rk > best.2 then (nm rk, sc rk) else best) b
          = (nm x, sc x) := by
  induction l with
  | nil => intro b hb; simp at hb
  | cons x xs ih =>
    intro b hb
    rw [List.map_cons, List.foldl_cons] at hb ⊢
    by_cases hx : sc x > b.2
    · rw [max_eq_right (le_of_lt hx)] at hb ⊢
      by_cases hxm : sc x = (xs.map sc).foldl max (sc x)
      · refine ⟨x, ?_, ?_, ?_⟩
        · rw [List.find?_cons_of_pos]
          simpa using hxm.symm ▸ hxm
        · exact hxm
        · rw [List.foldl_cons, if_pos hx]
          exact foldl_best_const sc nm xs (nm x, sc x)
            (fun y hy => by
              have := mem_le_foldl_max (xs.map sc) (sc x) (sc y)
                (List.mem_map_of_mem sc hy)
              simpa using hxm ▸ this)
      · have hlt : sc x < (xs.map sc).foldl max (sc x) :=
          lt_of_le_of_ne (le_foldl_max (xs.map sc) (sc x)) hxm
        obtain ⟨z, hfind, hscz, hfold⟩ := ih (nm x, sc x) hlt
        refine ⟨z, ?_, hscz, ?_⟩
        · rw [List.find?_cons_of_neg]
          · exact hfind
          · simpa using hxm
        · rw [List.foldl_cons, if_pos hx]
          exact hfold
    · push_neg at hx
      rw [max_eq_left hx] at hb ⊢
      obtain ⟨z, hfind, hscz, hfold⟩ := ih b hb
      refine ⟨z, ?_, hscz, ?_⟩
      · rw [List.find?_cons_of_neg]
        · exact hfind
        · have : sc x < (xs.map sc).foldl max b.2 := lt_of_le_of_lt hx hb
          simp
          omega
      · rw [List.foldl_cons, if_neg (by omega)]
        exact hfold

/-- **C2, amended.**  Role detection scores each role by the plain count of
its indicator phrases found as substrings of the lowercased job description
(every phrase counts +1; there is no +5 primary tier); the role with the
strictly highest count is returned, ties keep the first role in dictionary
iteration order, and if no role scores above 0 the result is "General" —
i.e. the detector agrees everywhere with the flat first-argmax
specification. -/
theorem claim_C2_amended (jd : String) :
    detect_role_from_jd jd = detect_role_spec jd := by
  simp only [detect_role_from_jd, detect_role_spec]
  by_cases hm :
      (role_patterns.map (fun rk => roleHits (pyLower jd) rk.2)).foldl max 0 = 0
  · rw [if_pos hm]
    have hall : ∀ x ∈ role_patterns,
        (fun rk => roleHits (pyLower jd) rk.2) x
          ≤ (("General", 0) : String × ℕ).2 := by
      intro x hx
      have := mem_le_foldl_max
        (role_patterns.map (fun rk => roleHits (pyLower jd) rk.2)) 0
        (roleHits (pyLower jd) x.2)
        (List.mem_map_of_mem _ hx)
      simpa using le_trans this (le_of_eq hm)
    have h := foldl_best_const (fun rk => roleHits (pyLower jd) rk.2)
      (fun rk => rk.1) role_patterns ("General", 0) hall
    exact congrArg Prod.fst h
  · rw [if_neg hm]
    have hpos : (("General", 0) : String × ℕ).2 <
        (role_patterns.map (fun rk => roleHits (pyLower jd) rk.2)).foldl max
          (("General", 0) : String × ℕ).2 :=
      Nat.pos_of_ne_zero hm
    obtain ⟨x, hfind, hscx, hfold⟩ := foldl_best_find
      (fun rk => roleHits (pyLower jd) rk.2) (fun rk => rk.1)
      role_patterns ("General", 0) hpos
    have hfind' : role_patterns.find?
        (fun rk => roleHits (pyLower jd) rk.2 =
          (role_patterns.map (fun rk => roleHits (pyLower jd) rk.2)).foldl max 0)
        = some x := hfind
    rw [hfind']
    have hfold' : role_patterns.foldl
        (fun best rk =>
          if roleHits (pyLower jd) rk.2 > best.2
          then (rk.1, roleHits (pyLower jd) rk.2) else best)
        ("General", 0) = (x.1, roleHits (pyLower jd) x.2) := hfold
    rw [hfold']

theorem filters_shape :
    ∀ s ∈ ["product manager", "product owner", "product management",
           "roadmap", "stakeholder"],
    ∀ p ∈ ["ui designer", "ux designer", "user experience", "figma",
           "user interface", "wireframe"],
      role_patterns.map
          (fun rk => rk.2.filter (fun k => pySub k (pyLower (s ++ " " ++ p))))
        = [[], [], [], [], [], [], [], [], [s], [p]] := by
  decide

theorem flat_on_pair (s p : String)
    (h : role_patterns.map
          (fun rk => rk.2.filter (fun k => pySub k (pyLower (s ++ " " ++ p))))
        = [[], [], [], [], [], [], [], [], [s], [p]]) :
    detect_role_from_jd (s ++ " " ++ p) = "Product Manager" := by
  have h' : role_patterns.map
      (fun rk => roleHits (pyLower (s ++ " " ++ p)) rk.2)
      = [0, 0, 0, 0, 0, 0, 0, 0, 1, 1] := by
    have hc := congrArg (List.map List.length) h
    rw [List.map_map] at hc
    simpa [roleHits, Function.comp] using hc
  simp only [role_patterns, List.map_cons, List.map_nil,
    List.cons.injEq, and_true] at h'
  obtain ⟨e1, e2, e3, e4, e5, e6, e7, e8, e9, e10⟩ := h'
  simp only [detect_role_from_jd, role_patterns, List.foldl_cons,
    List.foldl_nil, e1, e2, e3, e4, e5, e6, e7, e8, e9, e10]
  decide

theorem weighted_on_pair (w : String → String → ℕ) (s p : String)
    (h : role_patterns.map
          (fun rk => rk.2.filter (fun k => pySub k (pyLower (s ++ " " ++ p))))
        = [[], [], [], [], [], [], [], [], [s], [p]])
    (hws : w "Product Manager" s = 1) (hwp : w "UI/UX Designer" p = 5) :
    weighted_detect w (s ++ " " ++ p) = "UI/UX Designer" := by
  simp only [role_patterns, List.map_cons, List.map_nil,
    List.cons.injEq, and_true] at h
  obtain ⟨f1, f2, f3, f4, f5, f6, f7, f8, f9, f10⟩ := h
  simp only [weighted_detect, role_patterns, List.foldl_cons, List.foldl_nil,
    f1, f2, f3, f4, f5, f6, f7, f8, f9, f10, hws, hwp]
  decide

/-- **C2, counterexample.**  The claim's +5 primary / +1 secondary weighting
cannot reproduce the code: for any weight assignment in which every role has
at least one primary and one secondary phrase, take a secondary Product
Manager phrase s and a primary UI/UX Designer phrase p; on the job
description s ++ " " ++ p the code's flat count ties 1-1 and keeps
"Product Manager" (first in dictionary order), while the weighted argmax
scores 1 against 5 and selects "UI/UX Designer". -/
theorem claim_C2_counterexample : ¬ ClaimC2 := by
  rintro ⟨w, _hw01, hrole, hall⟩
  obtain ⟨s, hs, hws⟩ := (hrole ("Product Manager",
    ["product manager", "product owner", "product management",
     "roadmap", "stakeholder"]) (by decide)).2
  obtain ⟨p, hp, hwp⟩ := (hrole ("UI/UX Designer",
    ["ui designer", "ux designer", "user experience", "figma",
     "user interface", "wireframe"]) (by decide)).1
  have hshape := filters_shape s hs p hp
  have h1 := flat_on_pair s p hshape
  have h2 := weighted_on_pair w s p hshape hws hwp
  have h3 := hall (s ++ " " ++ p)
  rw [h1, h2] at h3
  exact absurd h3 (by decide)
